import Mathlib

/-!
Verification of the unt-units-svc storage core: the record model (composite
keys, timestamps, soft delete), the schema cache, the pagination-token
codec, and the DynamoDB-backed repository operations, shallowly embedded
from the Go source (internal/models and internal/repository).
-/

namespace UntUnits

/-- Association-list lookup, modelling Go map indexing `m[k]`. -/
def alookup {α : Type} (m : List (String × α)) (k : String) : Option α :=
  match m with
  | [] => none
  | (k', v) :: rest => if k' = k then some v else alookup rest k

/-- Dynamic Go values (the `interface` payloads flowing through
`ToMap`/`FromMap` and the attribute-value marshalling layer).  A
`float` is a Go float64 carried as its numeral text: the service never
computes with decoded numbers, so only its dynamic type and its
re-rendered numeral matter. -/
inductive GoVal where
  | str (s : String)
  | int (n : Int)
  | float (s : String)
  | boolean (b : Bool)
  | null
deriving Repr, DecidableEq

/-- A Go `map[string]interface` value, as an association list. -/
abbrev GoMap := List (String × GoVal)

/-- DynamoDB attribute values in the forms this service reads and writes:
string (`S`), number (`N`, carried as its numeral text), boolean, null. -/
inductive AttributeValue where
  | S (s : String)
  | N (s : String)
  | BOOL (b : Bool)
  | NULL
deriving Repr, DecidableEq

/-- A DynamoDB item / key: attribute name to attribute value. -/
abbrev Item := List (String × AttributeValue)

/-- Decimal digits of a natural number, least significant first (empty
for zero). -/
def natDigits (n : Nat) : List Nat :=
  if h : n = 0 then []
  else
    have : n / 10 < n := Nat.div_lt_self (Nat.pos_of_ne_zero h) (by omega)
    n % 10 :: natDigits (n / 10)

/-- The character of one decimal digit. -/
def digitChar : Nat → Char
  | 0 => '0'
  | 1 => '1'
  | 2 => '2'
  | 3 => '3'
  | 4 => '4'
  | 5 => '5'
  | 6 => '6'
  | 7 => '7'
  | 8 => '8'
  | _ => '9'

/-- Value of a least-significant-first digit list. -/
def digitsVal : List Nat → Nat
  | [] => 0
  | d :: ds => d + 10 * digitsVal ds

/-- Decimal character rendering of a natural number. -/
def natPrint (n : Nat) : List Char :=
  if n = 0 then ['0'] else ((natDigits n).reverse.map digitChar)

/-- Go strconv-style decimal rendering of an integer. -/
def intToStr (n : Int) : String :=
  if n < 0 then String.mk ('-' :: natPrint (-n).toNat)
  else String.mk (natPrint n.toNat)

/-- Accumulating decimal parse of a character list; fails on the first
non-digit. -/
def parseNatAcc (acc : Nat) : List Char → Option Nat
  | [] => some acc
  | c :: cs =>
    if 48 ≤ c.toNat ∧ c.toNat ≤ 57 then parseNatAcc (acc * 10 + (c.toNat - 48)) cs
    else none

/-- Decimal parse of a non-empty all-digit character list. -/
def parseNatChars : List Char → Option Nat
  | [] => none
  | c :: cs =>
    if 48 ≤ c.toNat ∧ c.toNat ≤ 57 then parseNatAcc (c.toNat - 48) cs
    else none

/-- Integer parse over a character list: an optional leading minus sign
followed by decimal digits. -/
def strToIntChars : List Char → Option Int
  | [] => none
  | c :: cs =>
    if c.toNat = 45 then (parseNatChars cs).map (fun m => -(m : Int))
    else (parseNatChars (c :: cs)).map (fun m => (m : Int))

/-- Go strconv-style integer parse (accepting the forms `intToStr`
produces and failing on everything non-integral). -/
def strToIntGo (s : String) : Option Int :=
  strToIntChars s.data

/-- attributevalue.MarshalMap on the maps this service writes (`ToMap`
output): strings become `S`, integers become `N` with their decimal
numeral, booleans `BOOL`, nil `NULL`.  The marshaller itself is an
external collaborator; this is its contract on the values that occur. -/
def marshalVal : GoVal → AttributeValue
  | .str s => .S s
  | .int n => .N (intToStr n)
  | .float s => .N s
  | .boolean b => .BOOL b
  | .null => .NULL

/-- attributevalue.MarshalMap over a whole map. -/
def marshalMap (m : GoMap) : Item :=
  m.map (fun p => (p.1, marshalVal p.2))

/-- attributevalue.UnmarshalMap back into a `map[string]interface{}`:
when the destination is `interface{}` the SDK's decoder produces a Go
float64 for every `N` attribute (nothing in this service sets the
`UseNumber` option), never an int64; the model carries the float64 as
its numeral text. -/
def unmarshalVal : AttributeValue → GoVal
  | .S s => .str s
  | .N s => .float s
  | .BOOL b => .boolean b
  | .NULL => .null

/-- attributevalue.UnmarshalMap over a whole item. -/
def unmarshalMap (it : Item) : GoMap :=
  it.map (fun p => (p.1, unmarshalVal p.2))

/-- Split a character list at the first `#`, returning the part before
the separator and the remainder after it, or `none` when no separator
occurs. -/
def splitAtHash : List Char → Option (List Char × List Char)
  | [] => none
  | c :: cs =>
    if c = '#' then some ([], cs)
    else
      match splitAtHash cs with
      | some (before, after) => some (c :: before, after)
      | none => none

/-- Go `strings.SplitN(s, sep, 2)` for the `#` separator, as used to take
the unit type back out of a sort key. -/
def goSplitN2 (s : String) : List String :=
  match splitAtHash s.data with
  | some (before, after) => [String.mk before, String.mk after]
  | none => [s]

/-- The dynamic, schema-driven unit record (models/dynamic_unit.go).  The
unexported compiled-schema pointer is handled by the explicit cache model
below; schema validation appears as an explicit callback standing for the
external gojsonschema library. -/
structure DynamicUnit where
  ID : String
  AccountID : String
  UnitType : String
  CreatedAt : Int
  UpdatedAt : Int
  DeletedAt : Int
  Data : GoMap
deriving Repr, DecidableEq

namespace DynamicUnit

/-- GetSortKey returns the composite sort key `unitType#id`. -/
def GetSortKey (du : DynamicUnit) : String :=
  du.UnitType ++ "#" ++ du.ID

/-- GetKey returns the composite primary key (pk = accountId,
sk = unitType#id). -/
def GetKey (du : DynamicUnit) : Item :=
  [("pk", .S du.AccountID), ("sk", .S du.GetSortKey)]

/-- SetTimestamps: stamp `createdAt` on first write only, refresh
`updatedAt` always; `now` is the clock reading (`time.Now().Unix()`). -/
def SetTimestamps (du : DynamicUnit) (now : Int) : DynamicUnit :=
  { du with
    CreatedAt := if du.CreatedAt = 0 then now else du.CreatedAt
    UpdatedAt := now }

/-- IsDeleted: the unit is soft deleted when `deletedAt` is positive. -/
def IsDeleted (du : DynamicUnit) : Bool :=
  du.DeletedAt > 0

/-- MarkDeleted stamps `deletedAt` with the clock reading. -/
def MarkDeleted (du : DynamicUnit) (now : Int) : DynamicUnit :=
  { du with DeletedAt := now }

/-- GenerateID installs a freshly generated identifier (the UUID source
is external randomness, passed in explicitly). -/
def GenerateID (du : DynamicUnit) (fresh : String) : DynamicUnit :=
  { du with ID := fresh }

end DynamicUnit

/-- ListUnitsInput (pkg/appsync/events.go). -/
structure ListUnitsInput where
  AccountID : String
  UnitType : Option String
  Limit : Option Int
  NextToken : Option String
deriving Repr

/-- The effective query limit computed by every List implementation:
start from the default 20 and accept a caller-supplied limit only when
it is positive and at most 100. -/
def effectiveLimit (l : Option Int) : Int :=
  match l with
  | some v => if 0 < v ∧ v ≤ 100 then v else 20
  | none => 20

/-- Go map assignment `m[k] = v`: replace the binding in place, or add
it when absent. -/
def mapPut (m : GoMap) (k : String) (v : GoVal) : GoMap :=
  match m with
  | [] => [(k, v)]
  | (k', v') :: rest => if k' = k then (k, v) :: rest else (k', v') :: mapPut rest k v

/-- A compiled JSON schema, identified by its source document; the
compiled form itself is opaque to every property proved here. -/
structure Schema where
  source : String
deriving Repr, DecidableEq

/-- The embedded commercialVehicleType.json document (go:embed); its
content only ever flows into the external compiler. -/
def commercialVehicleTypeSchema : String := "commercialVehicleType.json"

/-- The process-wide compiled-schema cache (`schemaCache`); the
read/write mutex becomes explicit state passing. -/
abbrev SchemaCache := List (String × Schema)

/-- loadSchema: serve a cached schema when present; otherwise reject
unsupported unit types, run the external compiler (`compile`, standing
for gojsonschema.NewSchema) over the embedded document, and cache the
result. -/
def loadSchema (compile : String → Except String Schema)
    (cache : SchemaCache) (unitType : String) :
    Except String Schema × SchemaCache :=
  match alookup cache unitType with
  | some s => (.ok s, cache)
  | none =>
    if unitType ≠ "commercialVehicleType" then
      (.error ("unsupported unit type: " ++ unitType), cache)
    else
      match compile commercialVehicleTypeSchema with
      | .error e => (.error ("failed to compile schema: " ++ e), cache)
      | .ok s => (.ok s, (unitType, s) :: cache)

/-- GetAvailableUnitTypes (its error result is always nil in source). -/
def GetAvailableUnitTypes : List String := ["commercialVehicleType"]

/-- The unit NewDynamicUnit returns: the requested unit type and an
empty data bag. -/
def emptyUnit (unitType : String) : DynamicUnit :=
  { ID := "", AccountID := "", UnitType := unitType,
    CreatedAt := 0, UpdatedAt := 0, DeletedAt := 0, Data := [] }

/-- NewDynamicUnit: load (or reject) the unit type's schema and return a
fresh unit with an empty data bag. -/
def NewDynamicUnit (compile : String → Except String Schema)
    (cache : SchemaCache) (unitType : String) :
    Except String DynamicUnit × SchemaCache :=
  match loadSchema compile cache unitType with
  | (.error e, c) =>
    (.error ("failed to load schema for unit type " ++ unitType ++ ": " ++ e), c)
  | (.ok _, c) => (.ok (emptyUnit unitType), c)

namespace DynamicUnit

/-- Validation document for `Validate`: a copy of the data bag with the
managed core fields forced in. -/
def validationData (du : DynamicUnit) : GoMap :=
  mapPut (mapPut (mapPut (mapPut (mapPut (mapPut du.Data
    "id" (.str du.ID))
    "accountId" (.str du.AccountID))
    "unitType" (.str du.UnitType))
    "createdAt" (.int du.CreatedAt))
    "updatedAt" (.int du.UpdatedAt))
    "deletedAt" (.int du.DeletedAt)

/-- Validate: run the external gojsonschema validator (`check`, returning
either a library failure or the list of violated constraints) over the
validation document; violations become one joined error. -/
def Validate (check : GoMap → Except String (List String)) (du : DynamicUnit) :
    Except String Unit :=
  match check du.validationData with
  | .error e => .error ("schema validation error: " ++ e)
  | .ok [] => .ok ()
  | .ok errs => .error ("data validation failed: " ++ String.intercalate "; " errs)

/-- The attribute names `ToMap` manages outside the data bag. -/
def coreFieldName (k : String) : Bool :=
  k == "id" || k == "accountId" || k == "unitType" ||
  k == "createdAt" || k == "updatedAt" || k == "deletedAt"

/-- ToMap: the storage map — the managed core fields plus every non-core
entry of the data bag. -/
def ToMap (du : DynamicUnit) : GoMap :=
  du.Data.foldl
    (fun acc p => if coreFieldName p.1 then acc else mapPut acc p.1 p.2)
    [("id", .str du.ID), ("pk", .str du.AccountID), ("sk", .str du.GetSortKey),
     ("unitType", .str du.UnitType), ("createdAt", .int du.CreatedAt),
     ("updatedAt", .int du.UpdatedAt), ("deletedAt", .int du.DeletedAt)]

/-- The attribute names `FromMap` keeps out of the rebuilt data bag. -/
def fromMapDropped (k : String) : Bool :=
  k == "pk" || k == "sk" || k == "createdAt" || k == "updatedAt" || k == "deletedAt"

/-- FromMap: populate the unit's core fields from a stored map (each via
a type assertion that silently skips on mismatch) and rebuild the data
bag from the non-key, non-timestamp entries.  The source assigns
sequentially — `unitType` first from the sort key, then overridden by the
`unitType` attribute — which collapses to one nested match per field. -/
def FromMap (du : DynamicUnit) (data : GoMap) : DynamicUnit :=
  { ID := match alookup data "id" with
      | some (.str s) => s
      | _ => du.ID
    AccountID := match alookup data "pk" with
      | some (.str s) => s
      | _ => du.AccountID
    UnitType := match alookup data "unitType" with
      | some (.str s) => s
      | _ =>
        match alookup data "sk" with
        | some (.str sk) =>
          match goSplitN2 sk with
          | [t, _] => t
          | _ => du.UnitType
        | _ => du.UnitType
    CreatedAt := match alookup data "createdAt" with
      | some (.int n) => n
      | _ => du.CreatedAt
    UpdatedAt := match alookup data "updatedAt" with
      | some (.int n) => n
      | _ => du.UpdatedAt
    DeletedAt := match alookup data "deletedAt" with
      | some (.int n) => n
      | _ => du.DeletedAt
    Data := data.foldl
      (fun acc p => if fromMapDropped p.1 then acc else mapPut acc p.1 p.2) [] }

end DynamicUnit

/-- Stored-item composite key: the `pk` and `sk` string attributes. -/
def itemKey (it : Item) : Option (String × String) :=
  match alookup it "pk", alookup it "sk" with
  | some (.S p), some (.S s) => some (p, s)
  | _, _ => none

/-- The external DynamoDB table, per the store client contract: a list
of items, at most one per composite key on every store this repository
produces. -/
abbrev Store := List Item

/-- Point read by exact composite key (GetItem). -/
def storeGet (st : Store) (pk sk : String) : Option Item :=
  st.find? (fun it => decide (itemKey it = some (pk, sk)))

/-- Point write (PutItem without condition): replace the item carrying
the same key, or add the item. -/
def storePut (st : Store) (item : Item) : Store :=
  match st with
  | [] => [item]
  | it :: rest =>
    if itemKey it = itemKey item then item :: rest else it :: storePut rest item

/-- `attribute_exists` over the (possibly absent) current item. -/
def attrExists (cur : Option Item) (name : String) : Bool :=
  match cur with
  | none => false
  | some it => (alookup it name).isSome

/-- Current value of an attribute of the (possibly absent) item. -/
def attrGet (cur : Option Item) (name : String) : Option AttributeValue :=
  match cur with
  | none => none
  | some it => alookup it name

/-- DynamoDB numeric equality of an attribute value against the `:zero`
numeral. -/
def nEqZero (v : Option AttributeValue) : Bool :=
  match v with
  | some (.N s) => decide (strToIntGo s = some 0)
  | _ => false

/-- The Create guard `attribute_not_exists(pk) AND
attribute_not_exists(sk)`. -/
def condCreate (cur : Option Item) : Bool :=
  !(attrExists cur "pk") && !(attrExists cur "sk")

/-- The Update guard `attribute_exists(pk) AND attribute_exists(sk) AND
(attribute_not_exists(deletedAt) OR deletedAt = :zero)`. -/
def condUpdate (cur : Option Item) : Bool :=
  attrExists cur "pk" && attrExists cur "sk" &&
    (!(attrExists cur "deletedAt") || nEqZero (attrGet cur "deletedAt"))

/-- Store-level failures surfaced to the repository. -/
inductive StoreErr where
  | conditionalCheckFailed
  | missingKey
deriving Repr, DecidableEq

/-- Conditional PutItem: the condition is evaluated server-side against
the current item under the new item's key before the write happens. -/
def putItemCond (st : Store) (item : Item) (cond : Option Item → Bool) :
    Except StoreErr Store :=
  match itemKey item with
  | none => .error .missingKey
  | some (pk, sk) =>
    if cond (storeGet st pk sk) then .ok (storePut st item)
    else .error .conditionalCheckFailed

/-- The repository's error taxonomy; constructors carry the key context
the Go code interpolates into its error strings. -/
inductive RepoErr where
  | unitNil
  | inputRequired
  | accountIDRequired
  | unitTypeRequired
  | unitIDRequired
  | sortKeyRequired
  | validationFailed (msg : String)
  | failedToLoadSchema (msg : String)
  | invalidSortKeyFormat (sk : String)
  | alreadyExists (accountId unitType id : String)
  | notFoundOrDeleted (accountId unitType id : String)
  | notFound (accountId unitType id : String)
  | decodeTokenFailed (msg : String)
  | internal (msg : String)
deriving Repr, DecidableEq

/-- A store call performed by a repository operation. -/
inductive StoreOp where
  | putItem (item : Item)
  | getItem (pk sk : String)
  | query (pk : String)
deriving Repr, DecidableEq

/-- Create's unit after the generate-id-when-absent step. -/
def createUnit1 (du : DynamicUnit) (fresh : String) : DynamicUnit :=
  if du.ID = "" then du.GenerateID fresh else du

/-- Create's unit after id generation and timestamp stamping. -/
def createUnit2 (du : DynamicUnit) (fresh : String) (now : Int) : DynamicUnit :=
  (createUnit1 du fresh).SetTimestamps now

/-- Create (dynamic variant): fail fast on a nil unit or missing
identifiers, generate the id when absent, stamp timestamps, validate
against the schema, then write guarded by "key must not exist".
Returns the outcome, the resulting store, and the store calls made. -/
def dynCreate (check : GoMap → Except String (List String))
    (fresh : String) (now : Int) (st : Store) (unit : Option DynamicUnit) :
    Except RepoErr DynamicUnit × Store × List StoreOp :=
  match unit with
  | none => (.error .unitNil, st, [])
  | some du =>
    if du.AccountID = "" then (.error .accountIDRequired, st, [])
    else if du.UnitType = "" then (.error .unitTypeRequired, st, [])
    else
      match (createUnit2 du fresh now).Validate check with
      | .error e => (.error (.validationFailed e), st, [])
      | .ok _ =>
        match putItemCond st (marshalMap (createUnit2 du fresh now).ToMap) condCreate with
        | .error .conditionalCheckFailed =>
          (.error (.alreadyExists (createUnit2 du fresh now).AccountID
              (createUnit2 du fresh now).UnitType (createUnit2 du fresh now).ID),
           st, [.putItem (marshalMap (createUnit2 du fresh now).ToMap)])
        | .error .missingKey =>
          (.error (.internal "failed to create unit"), st,
           [.putItem (marshalMap (createUnit2 du fresh now).ToMap)])
        | .ok st' =>
          (.ok (createUnit2 du fresh now), st',
           [.putItem (marshalMap (createUnit2 du fresh now).ToMap)])

/-- Update (dynamic variant): require identifiers, refresh `updatedAt`,
re-validate, then write guarded by "exists and not soft-deleted"; a
guard failure surfaces as the not-found-or-deleted error naming the
request's account, unit type and id. -/
def dynUpdate (check : GoMap → Except String (List String))
    (now : Int) (st : Store) (unit : Option DynamicUnit) :
    Except RepoErr Unit × Store × List StoreOp :=
  match unit with
  | none => (.error .unitNil, st, [])
  | some du =>
    if du.AccountID = "" then (.error .accountIDRequired, st, [])
    else if du.UnitType = "" then (.error .unitTypeRequired, st, [])
    else if du.ID = "" then (.error .unitIDRequired, st, [])
    else
      match (du.SetTimestamps now).Validate check with
      | .error e => (.error (.validationFailed e), st, [])
      | .ok _ =>
        match putItemCond st (marshalMap (du.SetTimestamps now).ToMap) condUpdate with
        | .error .conditionalCheckFailed =>
          (.error (.notFoundOrDeleted du.AccountID du.UnitType du.ID), st,
           [.putItem (marshalMap (du.SetTimestamps now).ToMap)])
        | .error .missingKey =>
          (.error (.internal "failed to update unit"), st,
           [.putItem (marshalMap (du.SetTimestamps now).ToMap)])
        | .ok st' =>
          (.ok (), st', [.putItem (marshalMap (du.SetTimestamps now).ToMap)])

/-- GetByKey (dynamic variant): point-read the composite key; an absent
item and a soft-deleted item both come back as "not found" (none) with
no error; a present item is rebuilt through NewDynamicUnit and FromMap
after taking the unit type out of the sort key. -/
def dynGetByKey (compile : String → Except String Schema) (cache : SchemaCache)
    (st : Store) (accountID sortKey : String) :
    Except RepoErr (Option DynamicUnit) × SchemaCache :=
  if accountID = "" then (.error .accountIDRequired, cache)
  else if sortKey = "" then (.error .sortKeyRequired, cache)
  else
    match storeGet st accountID sortKey with
    | none => (.ok none, cache)
    | some item =>
      match goSplitN2 sortKey with
      | [unitType, _] =>
        match NewDynamicUnit compile cache unitType with
        | (.error e, c) => (.error (.failedToLoadSchema e), c)
        | (.ok fresh0, c) =>
          if (fresh0.FromMap (unmarshalMap item)).IsDeleted then (.ok none, c)
          else (.ok (some (fresh0.FromMap (unmarshalMap item))), c)
      | _ => (.error (.invalidSortKeyFormat sortKey), cache)

/-- GetByID (dynamic variant): require the key parts, build the
`unitType#id` sort key and delegate to GetByKey. -/
def dynGetByID (compile : String → Except String Schema) (cache : SchemaCache)
    (st : Store) (accountID unitType unitID : String) :
    Except RepoErr (Option DynamicUnit) × SchemaCache :=
  if accountID = "" then (.error .accountIDRequired, cache)
  else if unitType = "" then (.error .unitTypeRequired, cache)
  else if unitID = "" then (.error .unitIDRequired, cache)
  else dynGetByKey compile cache st accountID (unitType ++ "#" ++ unitID)

/-- Delete (dynamic variant): read the current record through GetByKey
(absent or soft-deleted is a terminal not-found; a read failure is
wrapped and surfaced), stamp `deletedAt` and the timestamps, and rewrite
the full item with an unconditional put. -/
def dynDelete (compile : String → Except String Schema) (cache : SchemaCache)
    (st : Store) (now : Int) (accountID unitType unitID : String) :
    Except RepoErr Unit × Store × SchemaCache :=
  if accountID = "" then (.error .accountIDRequired, st, cache)
  else if unitType = "" then (.error .unitTypeRequired, st, cache)
  else if unitID = "" then (.error .unitIDRequired, st, cache)
  else
    match dynGetByKey compile cache st accountID (unitType ++ "#" ++ unitID) with
    | (.error e, c) => (.error e, st, c)
    | (.ok none, c) => (.error (.notFound accountID unitType unitID), st, c)
    | (.ok (some u), c) =>
      (.ok (),
       storePut st (marshalMap (((u.MarkDeleted now).SetTimestamps now)).ToMap), c)

/-- Modelled from the spec: the fixed-schema variant's `models.Unit` (the
struct behind the repository at part_007 lines 498-957) is not among the
source files — only that repository code and its tests are.  Spec §3 and
§4.1 plus the repository tests pin everything used here: identity and
account fields, a stored sort-key field refreshed from `id#unitType`
(TestUnit_GetSortKey), integer epoch timestamps with soft-delete
semantics, and an opaque bag of the remaining descriptive attributes. -/
structure FixedUnit where
  ID : String
  AccountID : String
  UnitType : String
  SortKey : String
  CreatedAt : Int
  UpdatedAt : Int
  DeletedAt : Int
  Extra : List (String × AttributeValue)
deriving Repr, DecidableEq

namespace FixedUnit

/-- Modelled from the spec: the fixed variant's sort key is
`id#unitType` (pinned by TestUnit_GetSortKey). -/
def GetSortKey (u : FixedUnit) : String := u.ID ++ "#" ++ u.UnitType

/-- Modelled from the spec: stamp `createdAt` once, refresh `updatedAt`
(§4.1 touchTimestamps). -/
def SetTimestamps (u : FixedUnit) (now : Int) : FixedUnit :=
  { u with
    CreatedAt := if u.CreatedAt = 0 then now else u.CreatedAt
    UpdatedAt := now }

/-- Modelled from the spec: soft deleted when `deletedAt` is positive. -/
def IsDeleted (u : FixedUnit) : Bool := u.DeletedAt > 0

/-- Modelled from the spec: stamp `deletedAt` (§4.1 markDeleted). -/
def MarkDeleted (u : FixedUnit) (now : Int) : FixedUnit :=
  { u with DeletedAt := now }

end FixedUnit

/-- attributevalue.MarshalMap over the fixed unit struct, per its field
tags (`pk`, `sk`, typed timestamps) and the store client contract. -/
def marshalFixedUnit (u : FixedUnit) : Item :=
  [("id", .S u.ID), ("pk", .S u.AccountID), ("sk", .S u.SortKey),
   ("unitType", .S u.UnitType), ("createdAt", .N (intToStr u.CreatedAt)),
   ("updatedAt", .N (intToStr u.UpdatedAt)), ("deletedAt", .N (intToStr u.DeletedAt))]
  ++ u.Extra

/-- attributevalue.UnmarshalMap into the typed fixed unit struct: string
fields from `S` attributes, int64 timestamps from `N` numerals, the rest
into the opaque bag. -/
def unmarshalFixedUnit (it : Item) : FixedUnit :=
  { ID := match alookup it "id" with
      | some (.S s) => s
      | _ => ""
    AccountID := match alookup it "pk" with
      | some (.S s) => s
      | _ => ""
    SortKey := match alookup it "sk" with
      | some (.S s) => s
      | _ => ""
    UnitType := match alookup it "unitType" with
      | some (.S s) => s
      | _ => ""
    CreatedAt := match alookup it "createdAt" with
      | some (.N s) => (strToIntGo s).getD 0
      | _ => 0
    UpdatedAt := match alookup it "updatedAt" with
      | some (.N s) => (strToIntGo s).getD 0
      | _ => 0
    DeletedAt := match alookup it "deletedAt" with
      | some (.N s) => (strToIntGo s).getD 0
      | _ => 0
    Extra := it.filter (fun p =>
      p.1 ≠ "id" && p.1 ≠ "pk" && p.1 ≠ "sk" && p.1 ≠ "unitType" &&
      p.1 ≠ "createdAt" && p.1 ≠ "updatedAt" && p.1 ≠ "deletedAt") }

/-- GetByKey (fixed variant): build the `id#unitType` sort key, point
read, and treat absent and soft-deleted items both as "not found" with
no error. -/
def fixedGetByKey (st : Store) (accountID unitID unitType : String) :
    Except RepoErr (Option FixedUnit) :=
  if accountID = "" then .error .accountIDRequired
  else if unitID = "" then .error .unitIDRequired
  else if unitType = "" then .error .unitTypeRequired
  else
    match storeGet st accountID (unitID ++ "#" ++ unitType) with
    | none => .ok none
    | some item =>
      if (unmarshalFixedUnit item).IsDeleted then .ok none
      else .ok (some (unmarshalFixedUnit item))

/-- Update (fixed variant): require identifiers, refresh timestamps and
the stored sort key, then write guarded by "exists and not soft-deleted";
a guard failure surfaces as the not-found-or-deleted error naming the
unit's id, type and account. -/
def fixedUpdate (now : Int) (st : Store) (unit : Option FixedUnit) :
    Except RepoErr Unit × Store :=
  match unit with
  | none => (.error .unitNil, st)
  | some u =>
    if u.AccountID = "" then (.error .accountIDRequired, st)
    else if u.ID = "" then (.error .unitIDRequired, st)
    else if u.UnitType = "" then (.error .unitTypeRequired, st)
    else
      match putItemCond st
          (marshalFixedUnit { u.SetTimestamps now with
            SortKey := (u.SetTimestamps now).GetSortKey }) condUpdate with
      | .error .conditionalCheckFailed =>
        (.error (.notFoundOrDeleted u.AccountID u.UnitType u.ID), st)
      | .error .missingKey => (.error (.internal "failed to update unit"), st)
      | .ok st' => (.ok (), st')

/-- A stored item is soft deleted when it carries a positive numeric
`deletedAt` attribute. -/
def softDeletedItem (it : Item) : Prop :=
  ∃ s n, alookup it "deletedAt" = some (.N s) ∧ strToIntGo s = some n ∧ 0 < n

/-- The update target under a key is absent or soft deleted. -/
def targetAbsentOrDeleted (st : Store) (pk sk : String) : Prop :=
  storeGet st pk sk = none ∨
    ∃ it, storeGet st pk sk = some it ∧ softDeletedItem it

/-- A heap of Go maps: Go maps are reference values, and which map
object gets mutated is the point of the frame property below. -/
abbrev Heap := List GoMap

/-- Read a map reference. -/
def heapGet (h : Heap) (r : Nat) : GoMap := h.getD r []

/-- Overwrite a map reference (out-of-range writes are dropped; the
properties below always keep references in range). -/
def heapSet : Heap → Nat → GoMap → Heap
  | [], _, _ => []
  | _ :: t, 0, m => m :: t
  | x :: t, r + 1, m => x :: heapSet t r m

/-- The dynamic unit with its data bag as a map reference: the Go struct
field `Data` holds a map reference, not a copy. -/
structure DynamicUnitRef where
  ID : String
  AccountID : String
  UnitType : String
  CreatedAt : Int
  UpdatedAt : Int
  DeletedAt : Int
  DataRef : Nat
deriving Repr, DecidableEq

/-- The heap after ValidateAndSetData's first in-place write (inject
`accountId` into the caller's map when the unit carries an account). -/
def vasdHeap1 (h : Heap) (du : DynamicUnitRef) (dataRef : Nat) : Heap :=
  if du.AccountID = "" then h
  else heapSet h dataRef (mapPut (heapGet h dataRef) "accountId" (.str du.AccountID))

/-- The heap after ValidateAndSetData's second in-place write (inject
`id` when the unit carries one). -/
def vasdHeap2 (h : Heap) (du : DynamicUnitRef) (dataRef : Nat) : Heap :=
  if du.ID = "" then vasdHeap1 h du dataRef
  else heapSet (vasdHeap1 h du dataRef) dataRef
    (mapPut (heapGet (vasdHeap1 h du dataRef) dataRef) "id" (.str du.ID))

/-- ValidateAndSetData: write the unit's `accountId` and `id` into the
caller's map (through its reference), validate the mutated map with the
external validator `check`, and on success install that same reference —
not a copy — as the unit's data bag. -/
def ValidateAndSetData (check : GoMap → Except String (List String))
    (h : Heap) (du : DynamicUnitRef) (dataRef : Nat) :
    Except String (Heap × DynamicUnitRef) :=
  match check (heapGet (vasdHeap2 h du dataRef) dataRef) with
  | .error e => .error ("schema validation error: " ++ e)
  | .ok [] => .ok (vasdHeap2 h du dataRef, { du with DataRef := dataRef })
  | .ok errs => .error ("data validation failed: " ++ String.intercalate "; " errs)

/-- The standard base64 alphabet character of one sextet. -/
def b64Char (n : Nat) : Char :=
  if n < 26 then Char.ofNat (65 + n)
  else if n < 52 then Char.ofNat (97 + (n - 26))
  else if n < 62 then Char.ofNat (48 + (n - 52))
  else if n = 62 then Char.ofNat 43
  else Char.ofNat 47

/-- Decode one base64 alphabet character; `none` outside the alphabet. -/
def b64Val (c : Char) : Option Nat :=
  if 65 ≤ c.toNat ∧ c.toNat ≤ 90 then some (c.toNat - 65)
  else if 97 ≤ c.toNat ∧ c.toNat ≤ 122 then some (26 + (c.toNat - 97))
  else if 48 ≤ c.toNat ∧ c.toNat ≤ 57 then some (52 + (c.toNat - 48))
  else if c.toNat = 43 then some 62
  else if c.toNat = 47 then some 63
  else none

/-- base64.StdEncoding encoding: 3-byte groups into 4 alphabet
characters, with `=` padding closing a short final group. -/
def b64encodeChars : List Nat → List Char
  | [] => []
  | [b0] => [b64Char (b0 / 4), b64Char (b0 % 4 * 16), '=', '=']
  | [b0, b1] =>
    [b64Char (b0 / 4), b64Char (b0 % 4 * 16 + b1 / 16), b64Char (b1 % 16 * 4), '=']
  | b0 :: b1 :: b2 :: rest =>
    b64Char (b0 / 4) :: b64Char (b0 % 4 * 16 + b1 / 16) ::
      b64Char (b1 % 16 * 4 + b2 / 64) :: b64Char (b2 % 64) :: b64encodeChars rest

/-- base64.StdEncoding.EncodeToString. -/
def b64encode (bs : List Nat) : String := String.mk (b64encodeChars bs)

/-- base64.StdEncoding.DecodeString over characters: 4-character groups,
`=` padding only closing the final group, error on anything else (Go's
tolerance for embedded newlines is not modelled). -/
def b64decodeChars : List Char → Except String (List Nat)
  | [] => .ok []
  | c0 :: c1 :: c2 :: c3 :: rest =>
    match b64Val c0, b64Val c1 with
    | some v0, some v1 =>
      if c2 = '=' then
        if c3 = '=' ∧ rest = [] then .ok [v0 * 4 + v1 / 16]
        else .error "illegal base64 data"
      else
        match b64Val c2 with
        | some v2 =>
          if c3 = '=' then
            if rest = [] then .ok [v0 * 4 + v1 / 16, v1 % 16 * 16 + v2 / 4]
            else .error "illegal base64 data"
          else
            match b64Val c3 with
            | some v3 =>
              match b64decodeChars rest with
              | .ok bs =>
                .ok ((v0 * 4 + v1 / 16) :: (v1 % 16 * 16 + v2 / 4) :: (v2 % 4 * 64 + v3) :: bs)
              | .error e => .error e
            | none => .error "illegal base64 data"
        | none => .error "illegal base64 data"
    | _, _ => .error "illegal base64 data"
  | _ => .error "illegal base64 data"

/-- base64.StdEncoding.DecodeString. -/
def b64decode (s : String) : Except String (List Nat) := b64decodeChars s.data

/-- JSON values; a number keeps its numeral text (this repository only
routes numbers through heuristic re-typing, never through arithmetic). -/
inductive JValue where
  | str (s : String)
  | num (raw : String)
  | boolean (b : Bool)
  | null
  | arr (elems : List JValue)
  | obj (fields : List (String × JValue))

/-- Lowercase hexadecimal digit byte. -/
def hexByte : Nat → Nat
  | 0 => 48
  | 1 => 49
  | 2 => 50
  | 3 => 51
  | 4 => 52
  | 5 => 53
  | 6 => 54
  | 7 => 55
  | 8 => 56
  | 9 => 57
  | 10 => 97
  | 11 => 98
  | 12 => 99
  | 13 => 100
  | 14 => 101
  | _ => 102

/-- Value of one hexadecimal digit byte, either letter case. -/
def hexVal (b : Nat) : Option Nat :=
  if 48 ≤ b ∧ b ≤ 57 then some (b - 48)
  else if 97 ≤ b ∧ b ≤ 102 then some (b - 87)
  else if 65 ≤ b ∧ b ≤ 70 then some (b - 55)
  else none

/-- UTF-8 encoding of one scalar value. -/
def utf8Char (n : Nat) : List Nat :=
  if n < 128 then [n]
  else if n < 2048 then [192 + n / 64, 128 + n % 64]
  else if n < 65536 then [224 + n / 4096, 128 + n / 64 % 64, 128 + n % 64]
  else [240 + n / 262144, 128 + n / 4096 % 64, 128 + n / 64 % 64, 128 + n % 64]

/-- The six-byte `\uXXXX` escape of a code point below 0x10000. -/
def escU (n : Nat) : List Nat :=
  [92, 117, hexByte (n / 4096 % 16), hexByte (n / 256 % 16), hexByte (n / 16 % 16),
   hexByte (n % 16)]

/-- Go json string escaping of one character: the short escapes, a
`\u00XX`-style escape for remaining control characters, the
HTML-escaped set and the line separators, and plain UTF-8 otherwise. -/
def escChar (c : Char) : List Nat :=
  if c.toNat = 34 then [92, 34]
  else if c.toNat = 92 then [92, 92]
  else if c.toNat = 10 then [92, 110]
  else if c.toNat = 13 then [92, 114]
  else if c.toNat = 9 then [92, 116]
  else if c.toNat < 32 ∨ c.toNat = 60 ∨ c.toNat = 62 ∨ c.toNat = 38
      ∨ c.toNat = 8232 ∨ c.toNat = 8233 then escU c.toNat
  else utf8Char c.toNat

/-- Escaped byte run of a character list. -/
def escString : List Char → List Nat
  | [] => []
  | c :: cs => escChar c ++ escString cs

/-- Serialized JSON string literal. -/
def serStr (s : String) : List Nat := 34 :: (escString s.data ++ [34])

/-- json.Marshal of the members of a string map, in the given order. -/
def serMembers : List (String × String) → List Nat
  | [] => []
  | [(k, v)] => serStr k ++ [58] ++ serStr v
  | (k, v) :: rest => serStr k ++ [58] ++ serStr v ++ [44] ++ serMembers rest

/-- json.Marshal of a string map whose entries are already ordered. -/
def serObj (fields : List (String × String)) : List Nat :=
  123 :: (serMembers fields ++ [125])

/-- Insert one entry into a key-ordered entry list. -/
def insertByKey (p : String × String) :
    List (String × String) → List (String × String)
  | [] => [p]
  | q :: rest => if p.1 ≤ q.1 then p :: q :: rest else q :: insertByKey p rest

/-- Key-ordering of map entries — json.Marshal renders a Go map with
sorted keys. -/
def sortByKey : List (String × String) → List (String × String)
  | [] => []
  | p :: rest => insertByKey p (sortByKey rest)

/-- Skip JSON whitespace. -/
def skipWs : List Nat → List Nat
  | b :: rest => if b = 32 ∨ b = 9 ∨ b = 10 ∨ b = 13 then skipWs rest else b :: rest
  | [] => []

/-- Prepend a parsed character to a string-body parse. -/
def consChar (c : Char) :
    Except String (List Char × List Nat) → Except String (List Char × List Nat)
  | .ok (cs, rest) => .ok (c :: cs, rest)
  | .error e => .error e

/-- Combine four hexadecimal digit bytes. -/
def hexVal4 (a b c d : Nat) : Option Nat :=
  match hexVal a, hexVal b, hexVal c, hexVal d with
  | some x, some y, some z, some w => some (x * 4096 + y * 256 + z * 16 + w)
  | _, _, _, _ => none

mutual

/-- JSON string-literal body parser (after the opening quote): plain
UTF-8 runs and backslash escapes. -/
def parseStringBody : List Nat → Except String (List Char × List Nat)
  | [] => .error "unexpected end of string literal"
  | b :: rest =>
    if b = 34 then .ok ([], rest)
    else if b = 92 then parseEscape rest
    else if b < 128 then consChar (Char.ofNat b) (parseStringBody rest)
    else if b < 194 then .error "invalid UTF-8 byte"
    else if b < 224 then parseCont1 b rest
    else if b < 240 then parseCont2 b rest
    else if b < 245 then parseCont3 b rest
    else .error "invalid UTF-8 byte"
termination_by l => l.length

/-- One continuation byte of a two-byte UTF-8 sequence. -/
def parseCont1 (b : Nat) : List Nat → Except String (List Char × List Nat)
  | [] => .error "truncated UTF-8"
  | b2 :: rest2 =>
    if 128 ≤ b2 ∧ b2 < 192 then
      consChar (Char.ofNat ((b - 192) * 64 + (b2 - 128))) (parseStringBody rest2)
    else .error "invalid UTF-8 continuation"
termination_by l => l.length

/-- Two continuation bytes of a three-byte UTF-8 sequence. -/
def parseCont2 (b : Nat) : List Nat → Except String (List Char × List Nat)
  | b2 :: b3 :: rest2 =>
    if (128 ≤ b2 ∧ b2 < 192) ∧ (128 ≤ b3 ∧ b3 < 192) then
      consChar (Char.ofNat ((b - 224) * 4096 + (b2 - 128) * 64 + (b3 - 128)))
        (parseStringBody rest2)
    else .error "invalid UTF-8 continuation"
  | _ => .error "truncated UTF-8"
termination_by l => l.length

/-- Three continuation bytes of a four-byte UTF-8 sequence. -/
def parseCont3 (b : Nat) : List Nat → Except String (List Char × List Nat)
  | b2 :: b3 :: b4 :: rest2 =>
    if (128 ≤ b2 ∧ b2 < 192) ∧ (128 ≤ b3 ∧ b3 < 192) ∧ (128 ≤ b4 ∧ b4 < 192) then
      consChar (Char.ofNat
          ((b - 240) * 262144 + (b2 - 128) * 4096 + (b3 - 128) * 64 + (b4 - 128)))
        (parseStringBody rest2)
    else .error "invalid UTF-8 continuation"
  | _ => .error "truncated UTF-8"
termination_by l => l.length

/-- The escape tail after a backslash: the short escapes and `\uXXXX`. -/
def parseEscape : List Nat → Except String (List Char × List Nat)
  | [] => .error "invalid escape"
  | e :: rest =>
    if e = 34 then consChar (Char.ofNat 34) (parseStringBody rest)
    else if e = 92 then consChar (Char.ofNat 92) (parseStringBody rest)
    else if e = 47 then consChar (Char.ofNat 47) (parseStringBody rest)
    else if e = 98 then consChar (Char.ofNat 8) (parseStringBody rest)
    else if e = 102 then consChar (Char.ofNat 12) (parseStringBody rest)
    else if e = 110 then consChar (Char.ofNat 10) (parseStringBody rest)
    else if e = 114 then consChar (Char.ofNat 13) (parseStringBody rest)
    else if e = 116 then consChar (Char.ofNat 9) (parseStringBody rest)
    else if e = 117 then parseEscapeU rest
    else .error "invalid escape"
termination_by l => l.length

/-- The four hexadecimal digits of a `\uXXXX` escape (surrogate pairs
are not modelled). -/
def parseEscapeU : List Nat → Except String (List Char × List Nat)
  | h1 :: h2 :: h3 :: h4 :: rest2 =>
    match hexVal4 h1 h2 h3 h4 with
    | some n =>
      if 55296 ≤ n ∧ n < 57344 then .error "surrogate escapes not modelled"
      else consChar (Char.ofNat n) (parseStringBody rest2)
    | none => .error "invalid hexadecimal escape"
  | _ => .error "invalid hexadecimal escape"
termination_by l => l.length

end

/-- Decimal digit byte test. -/
def isDigitByte (b : Nat) : Bool := decide (48 ≤ b) && decide (b ≤ 57)

/-- Drop a leading digit run. -/
def dropDigits : List Nat → List Nat
  | b :: rest => if isDigitByte b then dropDigits rest else b :: rest
  | [] => []

/-- All bytes are digits. -/
def allDigits : List Nat → Bool
  | [] => true
  | b :: rest => isDigitByte b && allDigits rest

/-- A non-empty digit run to the end. -/
def allDigits1 (l : List Nat) : Bool :=
  match l with
  | [] => false
  | _ => allDigits l

/-- Exponent digits with an optional sign. -/
def expDigits : List Nat → Bool
  | 43 :: r => allDigits1 r
  | 45 :: r => allDigits1 r
  | r => allDigits1 r

/-- Optional exponent closing a JSON numeral. -/
def expPart : List Nat → Bool
  | [] => true
  | 101 :: r => expDigits r
  | 69 :: r => expDigits r
  | _ => false

/-- Optional fraction then exponent of a JSON numeral. -/
def fracPart : List Nat → Bool
  | 46 :: r =>
    (match r with
     | b :: _ => isDigitByte b && expPart (dropDigits r)
     | [] => false)
  | r => expPart r

/-- JSON integer part: a bare zero or a nonzero-led digit run. -/
def jsonIntPart : List Nat → Bool
  | 48 :: r => fracPart r
  | b :: r => if 49 ≤ b ∧ b ≤ 57 then fracPart (dropDigits r) else false
  | [] => false

/-- Full JSON numeral grammar. -/
def jsonNumOk : List Nat → Bool
  | 45 :: r => jsonIntPart r
  | r => jsonIntPart r

/-- Bytes that can appear in a JSON numeral. -/
def numByte (b : Nat) : Bool :=
  isDigitByte b || decide (b = 43) || decide (b = 45) || decide (b = 46) ||
    decide (b = 101) || decide (b = 69)

/-- Parse a JSON numeral, keeping its text. -/
def parseNumberVal (l : List Nat) : Except String (JValue × List Nat) :=
  match l.span (fun b => numByte b) with
  | (chunk, rest) =>
    if chunk ≠ [] ∧ jsonNumOk chunk then
      .ok (.num (String.mk (chunk.map (fun b => Char.ofNat b))), rest)
    else .error "invalid JSON value"

/-- Recognize a keyword tail (`rue`, `alse`, `ull`). -/
def keywordTail (kw : List Nat) (res : JValue) (l : List Nat) :
    Except String (JValue × List Nat) :=
  if l.take kw.length = kw then .ok (res, l.drop kw.length)
  else .error "invalid JSON value"

mutual

/-- Fueled JSON value parser over json.Unmarshal's grammar; the fuel
falls on every step and bounds nesting and member counts. -/
def parseValue : Nat → List Nat → Except String (JValue × List Nat)
  | 0, _ => .error "value nesting too deep"
  | fuel + 1, input =>
    match skipWs input with
    | [] => .error "unexpected end of JSON"
    | b :: rest =>
      if b = 34 then
        match parseStringBody rest with
        | .ok (cs, rest2) => .ok (.str (String.mk cs), rest2)
        | .error e => .error e
      else if b = 123 then parseObjBody fuel rest
      else if b = 91 then parseArrBody fuel rest
      else if b = 116 then keywordTail [114, 117, 101] (.boolean true) rest
      else if b = 102 then keywordTail [97, 108, 115, 101] (.boolean false) rest
      else if b = 110 then keywordTail [117, 108, 108] .null rest
      else parseNumberVal (b :: rest)

/-- Object body after the opening brace: empty object or members. -/
def parseObjBody : Nat → List Nat → Except String (JValue × List Nat)
  | 0, _ => .error "value nesting too deep"
  | fuel + 1, input =>
    match skipWs input with
    | 125 :: rest2 => .ok (.obj [], rest2)
    | l2 =>
      match parseMembers fuel l2 with
      | .ok (fs, rest2) => .ok (.obj fs, rest2)
      | .error e => .error e

/-- Array body after the opening bracket: empty array or elements. -/
def parseArrBody : Nat → List Nat → Except String (JValue × List Nat)
  | 0, _ => .error "value nesting too deep"
  | fuel + 1, input =>
    match skipWs input with
    | 93 :: rest2 => .ok (.arr [], rest2)
    | l2 =>
      match parseElems fuel l2 with
      | .ok (es, rest2) => .ok (.arr es, rest2)
      | .error e => .error e

/-- Object members: a quoted key handed on to the colon step. -/
def parseMembers : Nat → List Nat → Except String (List (String × JValue) × List Nat)
  | 0, _ => .error "value nesting too deep"
  | fuel + 1, input =>
    match skipWs input with
    | [] => .error "expected object key"
    | b :: rest =>
      if b = 34 then
        match parseStringBody rest with
        | .error e => .error e
        | .ok (k, rest2) => parseMemberColon fuel (String.mk k) rest2
      else .error "expected object key"

/-- The colon between a member's key and value. -/
def parseMemberColon : Nat → String → List Nat →
    Except String (List (String × JValue) × List Nat)
  | 0, _, _ => .error "value nesting too deep"
  | fuel + 1, k, input =>
    match skipWs input with
    | [] => .error "expected colon"
    | b :: rest =>
      if b = 58 then parseMemberValue fuel k rest
      else .error "expected colon"

/-- A member's value. -/
def parseMemberValue : Nat → String → List Nat →
    Except String (List (String × JValue) × List Nat)
  | 0, _, _ => .error "value nesting too deep"
  | fuel + 1, k, input =>
    match parseValue fuel input with
    | .error e => .error e
    | .ok (v, rest4) => parseMemberNext fuel k v rest4

/-- After a member: either a comma and further members or the closing
brace. -/
def parseMemberNext : Nat → String → JValue → List Nat →
    Except String (List (String × JValue) × List Nat)
  | 0, _, _, _ => .error "value nesting too deep"
  | fuel + 1, k, v, input =>
    match skipWs input with
    | [] => .error "expected comma or closing brace"
    | b :: rest5 =>
      if b = 44 then
        match parseMembers fuel rest5 with
        | .ok (fs, rest6) => .ok ((k, v) :: fs, rest6)
        | .error e => .error e
      else if b = 125 then .ok ([(k, v)], rest5)
      else .error "expected comma or closing brace"

/-- Array elements: a value handed on to the separator step. -/
def parseElems : Nat → List Nat → Except String (List JValue × List Nat)
  | 0, _ => .error "value nesting too deep"
  | fuel + 1, input =>
    match parseValue fuel input with
    | .error e => .error e
    | .ok (v, rest) => parseElemNext fuel v rest

/-- After an element: either a comma and further elements or the closing
bracket. -/
def parseElemNext : Nat → JValue → List Nat → Except String (List JValue × List Nat)
  | 0, _, _ => .error "value nesting too deep"
  | fuel + 1, v, input =>
    match skipWs input with
    | [] => .error "expected comma or closing bracket"
    | b :: rest2 =>
      if b = 44 then
        match parseElems fuel rest2 with
        | .ok (es, rest3) => .ok (v :: es, rest3)
        | .error e => .error e
      else if b = 93 then .ok ([v], rest2)
      else .error "expected comma or closing bracket"

end

/-- json.Unmarshal: parse one value and insist nothing but whitespace
follows. -/
def jsonParse (bs : List Nat) : Except String JValue :=
  match parseValue (bs.length + 1) bs with
  | .error e => .error e
  | .ok (v, rest) => if skipWs rest = [] then .ok v else .error "unexpected trailing data"

/-- Decimal digit character test. -/
def isDigitCh (c : Char) : Bool := decide (48 ≤ c.toNat) && decide (c.toNat ≤ 57)

/-- All characters are digits. -/
def allDigitsCh : List Char → Bool
  | [] => true
  | c :: rest => isDigitCh c && allDigitsCh rest

/-- A non-empty digit run to the end. -/
def allDigitsCh1 (l : List Char) : Bool :=
  match l with
  | [] => false
  | _ => allDigitsCh l

/-- Optional exponent closing a float literal. -/
def floatExpPart : List Char → Bool
  | [] => true
  | c :: r =>
    if c.toNat = 101 ∨ c.toNat = 69 then
      match r with
      | c2 :: r2 =>
        if c2.toNat = 43 ∨ c2.toNat = 45 then allDigitsCh1 r2 else allDigitsCh1 r
      | [] => false
    else false

/-- Digits with an optional decimal point on either side, then an
optional exponent. -/
def floatMantissa (l : List Char) : Bool :=
  match l.span (fun c => isDigitCh c) with
  | (d1, r1) =>
    match r1 with
    | c :: r2 =>
      if c.toNat = 46 then
        match r2.span (fun c2 => isDigitCh c2) with
        | (d2, r3) => (decide (d1 ≠ []) || decide (d2 ≠ [])) && floatExpPart r3
      else decide (d1 ≠ []) && floatExpPart r1
    | [] => decide (d1 ≠ [])

/-- strconv.ParseFloat acceptance on the decimal forms the token decoder
probes (the hexadecimal and inf/nan spellings never arise here). -/
def goParseFloatOk (s : String) : Bool :=
  match s.data with
  | [] => false
  | c :: rest =>
    if c.toNat = 43 ∨ c.toNat = 45 then floatMantissa rest
    else floatMantissa s.data

/-- Integer digits of a numeral rounded by its fraction. -/
def fmtFloat0Chars (l : List Char) : List Char :=
  match l.span (fun c => isDigitCh c) with
  | (ip, r) =>
    let n := (parseNatChars ip).getD 0
    let roundUp :=
      match r with
      | c :: c2 :: _ => decide (c.toNat = 46) && isDigitCh c2 && decide (53 ≤ c2.toNat)
      | _ => false
    natPrint (if roundUp then n + 1 else n)

/-- Decimal model of fmt.Sprintf with zero precision over the parsed
numeral, as the decoder re-renders JSON numbers: keep the integer digits
and round by the fraction.  This arm is unreachable through tokens this
service mints, which carry every numeral as a JSON string. -/
def fmtFloat0 (raw : String) : String :=
  match raw.data with
  | c :: rest =>
    if c.toNat = 45 then String.mk (Char.ofNat 45 :: fmtFloat0Chars rest)
    else String.mk (fmtFloat0Chars raw.data)
  | [] => raw

/-- fmt rendering of a decoded JSON value, for the decoder's default arm
(never reached by tokens this service mints). -/
def goFormatJValue : JValue → String
  | .str s => s
  | .num raw => raw
  | .boolean true => "true"
  | .boolean false => "false"
  | .null => "<nil>"
  | .arr _ => "[]"
  | .obj _ => "map[]"

/-- fmt rendering of a non-S/N attribute value, for the encoder's
default arm (never reached by this table's key attributes). -/
def goFormatAttr : AttributeValue → String
  | .S s => s
  | .N s => s
  | .BOOL true => "&\x7btrue \x7b\x7d\x7d"
  | .BOOL false => "&\x7bfalse \x7b\x7d\x7d"
  | .NULL => "&\x7btrue \x7b\x7d\x7d"

/-- Flatten one attribute into the token payload: `S` and `N` keep their
text, anything else falls to the default fmt rendering. -/
def flattenAttr : AttributeValue → String
  | .S s => s
  | .N s => s
  | v => goFormatAttr v

/-- encodePaginationToken: a nil key encodes to the empty token;
otherwise flatten each attribute to text, marshal the map as compact
JSON with sorted keys, and transport-encode the bytes (json.Marshal
cannot fail on a map of strings, so no error arises). -/
def encodePaginationToken (lastKey : Option (List (String × AttributeValue))) : String :=
  match lastKey with
  | none => ""
  | some m => b64encode (serObj (sortByKey (m.map (fun p => (p.1, flattenAttr p.2)))))

/-- The decoder's per-field re-typing heuristic: `pk`/`sk` stay strings,
other strings that parse as floats become numbers, JSON numbers are
re-rendered as integer text, and everything else falls back to a
string. -/
def retypeField (k : String) (v : JValue) : AttributeValue :=
  match v with
  | .str s =>
    if k = "pk" ∨ k = "sk" then .S s
    else if goParseFloatOk s then .N s
    else .S s
  | .num raw => .N (fmtFloat0 raw)
  | v => .S (goFormatJValue v)

/-- decodePaginationToken: the empty token is an absent key with no
error; otherwise transport-decode (error on malformed base64), parse the
JSON object (error on malformed structured text), and re-type each
field. -/
def decodePaginationToken (token : String) :
    Except String (Option (List (String × AttributeValue))) :=
  if token = "" then .ok none
  else
    match b64decode token with
    | .error e => .error ("failed to decode token: " ++ e)
    | .ok bytes =>
      match jsonParse bytes with
      | .error e => .error ("failed to unmarshal token data: " ++ e)
      | .ok (.obj fields) =>
        .ok (some (fields.map (fun p => (p.1, retypeField p.1 p.2))))
      | .ok _ => .error ("failed to unmarshal token data: not an object")

/-- Character-list prefix test. -/
def beginsWithChars : List Char → List Char → Bool
  | [], _ => true
  | _ :: _, [] => false
  | c :: pr, d :: ss => decide (c = d) && beginsWithChars pr ss

/-- The begins_with(sk, :unitType) key-condition function. -/
def beginsWith (s pre : String) : Bool := beginsWithChars pre.data s.data

/-- The List FilterExpression `attribute_not_exists(deletedAt) OR
deletedAt = :zero` on one item. -/
def notDeletedFilter (it : Item) : Bool :=
  match alookup it "deletedAt" with
  | none => true
  | some v => nEqZero (some v)

/-- The key condition the List implementations issue: `pk = :accountId`,
and with a discriminator also `begins_with(sk, :unitType)` where
`:unitType` is the discriminator followed by the separator. -/
def keyCondMatch (acc : String) (utPre : Option String) (it : Item) : Bool :=
  (match alookup it "pk" with
   | some (.S s) => decide (s = acc)
   | _ => false) &&
  (match utPre with
   | none => true
   | some pre =>
     match alookup it "sk" with
     | some (.S s) => beginsWith s pre
     | _ => false)

/-- The key attributes of an item, as Query surfaces them in
LastEvaluatedKey. -/
def keyAttrsOf (it : Item) : List (String × AttributeValue) :=
  it.filter (fun p => decide (p.1 = "pk") || decide (p.1 = "sk"))

/-- Contract model of ExclusiveStartKey: the page resumes right after
the item carrying the given key (everything when no key is given). -/
def afterStartKey (st : Store) : Option (List (String × AttributeValue)) → Store
  | none => st
  | some key =>
    match st.dropWhile (fun it => decide (keyAttrsOf it ≠ key)) with
    | [] => []
    | _ :: rest => rest

/-- What a Query returns to the repository. -/
structure QueryResult where
  Items : List Item
  LastEvaluatedKey : Option (List (String × AttributeValue))
deriving Repr

/-- Contract model of the store Query the List implementations issue:
scan from the start key, keep the key-condition matches, cut the page at
the limit, apply the filter expression to the page, and surface
LastEvaluatedKey when the page stopped early. -/
def dynQuery (st : Store) (startKey : Option (List (String × AttributeValue)))
    (acc : String) (utPre : Option String) (limit : Nat) : QueryResult :=
  match (afterStartKey st startKey).filter (fun it => keyCondMatch acc utPre it) with
  | keyMatched =>
    { Items := (keyMatched.take limit).filter (fun it => notDeletedFilter it),
      LastEvaluatedKey :=
        if keyMatched.length ≤ limit then none
        else ((keyMatched.take limit).getLast?).map keyAttrsOf }

/-- Go append on a possibly-nil slice of unit maps: appending to the nil
slice allocates a fresh one. -/
def goAppend (s : Option (List GoMap)) (x : GoMap) : Option (List GoMap) :=
  some (s.getD [] ++ [x])

/-- ListUnitsResponse as the dynamic repository builds it: the Items
slice is whatever the append loop left behind, which is the Go nil slice
(marshalled to JSON null) when nothing was appended. -/
structure ListUnitsResponse where
  Items : Option (List GoMap)
  Count : Nat
  NextToken : Option String
deriving Repr

/-- The fixed variant's response: its Items slice is initialized
non-nil before unmarshalling. -/
structure FixedListResponse where
  Items : Option (List FixedUnit)
  Count : Nat
  NextToken : Option String
deriving Repr

/-- The List functions' NextToken handling: an absent or empty token
contributes no start key; a present one is decoded, and the decode
error is surfaced. -/
def listStartKey (tok : Option String) :
    Except String (Option (List (String × AttributeValue))) :=
  match tok with
  | none => .ok none
  | some t =>
    if t = "" then .ok none
    else
      match decodePaginationToken t with
      | .error e => .error ("failed to decode pagination token: " ++ e)
      | .ok k => .ok k

/-- The discriminator prefix the dynamic List passes to begins_with:
only a present, non-empty UnitType contributes one. -/
def listUtPre (ut : Option String) : Option String :=
  match ut with
  | none => none
  | some u => if u = "" then none else some (u ++ "#")

/-- The response's NextToken: only a present LastEvaluatedKey that
encodes to a non-empty token contributes one. -/
def listNextTok (lek : Option (List (String × AttributeValue))) : Option String :=
  match lek with
  | none => none
  | some k =>
    match encodePaginationToken (some k) with
    | t => if t = "" then none else some t

/-- The dynamic repository's List (repository/dynamodb.go): validate
the input, decode the pagination token, query, then unmarshal each
returned item into a map, appending to a slice that starts as Go nil. -/
def dynList (st : Store) (input : Option ListUnitsInput) :
    Except String ListUnitsResponse :=
  match input with
  | none => .error "input is required"
  | some inp =>
    if inp.AccountID = "" then .error "accountID is required"
    else
      match listStartKey inp.NextToken with
      | .error e => .error e
      | .ok startKey =>
        match dynQuery st startKey inp.AccountID (listUtPre inp.UnitType)
            (effectiveLimit inp.Limit).toNat with
        | result =>
          match result.Items.foldl (fun s it => goAppend s (unmarshalMap it)) none with
          | unitMaps =>
            .ok { Items := unitMaps,
                  Count := (unitMaps.getD []).length,
                  NextToken := listNextTok result.LastEvaluatedKey }

/-- Modelled from the spec: the fixed variant's List over the
`id#unitType` schema — same validation, token handling and query, but
its Items slice is explicitly initialized empty ("critical for GraphQL
schema compliance") before UnmarshalListOfMaps fills it. -/
def fixedList (st : Store) (input : Option ListUnitsInput) :
    Except String FixedListResponse :=
  match input with
  | none => .error "input is required"
  | some inp =>
    if inp.AccountID = "" then .error "accountID is required"
    else
      match listStartKey inp.NextToken with
      | .error e => .error e
      | .ok startKey =>
        match dynQuery st startKey inp.AccountID none
            (effectiveLimit inp.Limit).toNat with
        | result =>
          match (some [] : Option (List FixedUnit)).map
              (fun u => u ++ result.Items.map (fun it => unmarshalFixedUnit it)) with
          | units =>
            .ok { Items := units,
                  Count := (units.getD []).length,
                  NextToken := listNextTok result.LastEvaluatedKey }

/-- Strings are equal when their character lists are. -/
theorem stringDataInj {s t : String} (h : s.data = t.data) : s = t := by
  cases s; cases t; exact congrArg String.mk h

/-- Splitting at the first separator undoes `before ++ sep ++ after`
whenever the part before the separator contains no separator itself. -/
theorem splitAtHash_append (before after : List Char) (h : '#' ∉ before) :
    splitAtHash (before ++ '#' :: after) = some (before, after) := by
  induction before with
  | nil => simp [splitAtHash]
  | cons c cs ih =>
    have hc : c ≠ '#' := by
      intro hc
      exact h (by simp [hc])
    have hcs : '#' ∉ cs := fun hm => h (List.mem_cons_of_mem _ hm)
    simp [splitAtHash, hc, ih hcs]

/-- The character data of an appended string. -/
theorem stringDataAppend (s t : String) : (s ++ t).data = s.data ++ t.data :=
  rfl

/-- Every digit produced by `natDigits` is below 10. -/
theorem natDigits_lt_ten (n : Nat) : ∀ d ∈ natDigits n, d < 10 := by
  induction n using Nat.strong_induction_on with
  | _ n ih =>
    intro d hd
    rw [natDigits] at hd
    by_cases h : n = 0
    · simp [h] at hd
    · simp only [h, dite_false] at hd
      rcases List.mem_cons.mp hd with h1 | h1
      · omega
      · exact ih (n / 10) (Nat.div_lt_self (Nat.pos_of_ne_zero h) (by omega)) d h1

/-- Reassembling the digits of a number gives the number back. -/
theorem digitsVal_natDigits (n : Nat) : digitsVal (natDigits n) = n := by
  induction n using Nat.strong_induction_on with
  | _ n ih =>
    rw [natDigits]
    by_cases h : n = 0
    · simp [h, digitsVal]
    · simp only [h, dite_false, digitsVal]
      rw [ih (n / 10) (Nat.div_lt_self (Nat.pos_of_ne_zero h) (by omega))]
      omega

/-- The code point of a digit character. -/
theorem digitChar_toNat (d : Nat) (h : d < 10) : (digitChar d).toNat = 48 + d := by
  interval_cases d <;> rfl

/-- The accumulating parser consumes a digit-character block. -/
theorem parseNatAcc_digits (ds : List Nat) (h : ∀ d ∈ ds, d < 10) (acc : Nat) :
    parseNatAcc acc (ds.map digitChar) = some (ds.foldl (fun a d => a * 10 + d) acc) := by
  induction ds generalizing acc with
  | nil => rfl
  | cons d ds ih =>
    have hd : d < 10 := h d (List.mem_cons_self d ds)
    have hds : ∀ x ∈ ds, x < 10 := fun x hx => h x (List.mem_cons_of_mem d hx)
    simp only [List.map, parseNatAcc, digitChar_toNat d hd]
    rw [if_pos (by omega)]
    have : acc * 10 + (48 + d - 48) = acc * 10 + d := by omega
    rw [this, ih hds]
    rfl

/-- Folding a reversed digit list matches the little-endian value. -/
theorem foldl_reverse_digitsVal (l : List Nat) (acc : Nat) :
    l.reverse.foldl (fun a d => a * 10 + d) acc = acc * 10 ^ l.length + digitsVal l := by
  induction l generalizing acc with
  | nil => simp [digitsVal]
  | cons d ds ih =>
    simp only [List.reverse_cons, List.foldl_append, List.foldl_cons, List.foldl_nil,
      digitsVal, List.length_cons, ih]
    ring

/-- `natPrint` output is never empty. -/
theorem natPrint_ne_nil (n : Nat) : natPrint n ≠ [] := by
  unfold natPrint
  by_cases h : n = 0
  · simp [h]
  · have : natDigits n = n % 10 :: natDigits (n / 10) := by
      rw [natDigits]; simp [h]
    simp [h, this]

/-- Every character `natPrint` emits is a decimal digit. -/
theorem natPrint_all_digits (n : Nat) : ∀ c ∈ natPrint n, 48 ≤ c.toNat ∧ c.toNat ≤ 57 := by
  intro c hc
  unfold natPrint at hc
  by_cases h : n = 0
  · simp [h] at hc
    simp [hc]
  · simp only [h, if_false, List.mem_map, List.mem_reverse] at hc
    obtain ⟨d, hd, hdc⟩ := hc
    have : d < 10 := natDigits_lt_ten n d hd
    rw [← hdc, digitChar_toNat d this]
    omega

/-- Parsing a printed natural number gives it back. -/
theorem parse_natPrint (n : Nat) : parseNatChars (natPrint n) = some n := by
  by_cases h : n = 0
  · simp [h, natPrint, parseNatChars, parseNatAcc]
  · have hdig : natDigits n ≠ [] := by
      rw [natDigits]; simp [h]
    unfold natPrint
    rw [if_neg h]
    rcases hrev : (natDigits n).reverse with _ | ⟨d, ds⟩
    · exact absurd (by simpa using congrArg List.reverse hrev) hdig
    · have hmem : ∀ x ∈ d :: ds, x < 10 := by
        intro x hx
        exact natDigits_lt_ten n x (List.mem_reverse.mp (hrev ▸ hx))
      have hd : d < 10 := hmem d (List.mem_cons_self d ds)
      simp only [hrev, List.map, parseNatChars, digitChar_toNat d hd]
      rw [if_pos (by omega)]
      have heq : 48 + d - 48 = 0 * 10 + d := by omega
      rw [heq, parseNatAcc_digits ds (fun x hx => hmem x (List.mem_cons_of_mem d hx))]
      have h2 := foldl_reverse_digitsVal (natDigits n) 0
      rw [hrev, List.foldl_cons] at h2
      rw [h2, digitsVal_natDigits]
      norm_num

/-- Printing then parsing an integer is the identity: the store's numeral
attributes decode to the exact integer they encoded. -/
theorem strToIntGo_intToStr (n : Int) : strToIntGo (intToStr n) = some n := by
  unfold intToStr
  by_cases h : n < 0
  · rw [if_pos h]
    show strToIntChars ('-' :: natPrint (-n).toNat) = some n
    have hcast : ((-n).toNat : Int) = -n := Int.toNat_of_nonneg (by omega)
    rw [strToIntChars, if_pos (by decide : ('-').toNat = 45), parse_natPrint]
    simp [hcast]
  · rw [if_neg h]
    show strToIntChars (natPrint n.toNat) = some n
    rcases hp : natPrint n.toNat with _ | ⟨c, cs⟩
    · exact absurd hp (natPrint_ne_nil _)
    · have hc : 48 ≤ c.toNat ∧ c.toNat ≤ 57 :=
        natPrint_all_digits n.toNat c (hp ▸ List.mem_cons_self c cs)
      have hcast : (n.toNat : Int) = n := Int.toNat_of_nonneg (by omega)
      rw [strToIntChars, if_neg (by omega), ← hp, parse_natPrint]
      simp [hcast]

/-- C8: the effective List query limit is 20 when the caller supplies no
limit, and never exceeds 100 for any caller-supplied limit. -/
theorem list_limit_default_and_cap :
    effectiveLimit none = 20 ∧ ∀ l : Int, effectiveLimit (some l) ≤ 100 := by
  refine ⟨rfl, fun l => ?_⟩
  by_cases h : 0 < l ∧ l ≤ 100
  · simp [effectiveLimit, h]
  · simp [effectiveLimit, h]

/-- C7 counterexample: two different (unitType, id) pairs collide on the
same sort key, and the first-separator split does not recover a unit type
that itself contains the separator. -/
theorem sortKey_collision_counterexample :
    (DynamicUnit.GetSortKey
        { ID := "c", AccountID := "a", UnitType := "a#b",
          CreatedAt := 0, UpdatedAt := 0, DeletedAt := 0, Data := [] } =
      DynamicUnit.GetSortKey
        { ID := "b#c", AccountID := "a", UnitType := "a",
          CreatedAt := 0, UpdatedAt := 0, DeletedAt := 0, Data := [] })
    ∧ (("a#b", "c") : String × String) ≠ ("a", "b#c")
    ∧ goSplitN2 (DynamicUnit.GetSortKey
        { ID := "c", AccountID := "a", UnitType := "a#b",
          CreatedAt := 0, UpdatedAt := 0, DeletedAt := 0, Data := [] })
        ≠ ["a#b", "c"] := by
  refine ⟨rfl, by decide, by decide⟩

/-- C7 amended: for unit types free of the `#` separator, splitting the
sort key at the first separator recovers exactly the (unitType, id) pair
used to build it, and distinct pairs never produce colliding sort keys. -/
theorem sortKey_reconstructible_and_injective (du du' : DynamicUnit)
    (h : '#' ∉ du.UnitType.data) (h' : '#' ∉ du'.UnitType.data) :
    goSplitN2 du.GetSortKey = [du.UnitType, du.ID] ∧
    (du.GetSortKey = du'.GetSortKey → du.UnitType = du'.UnitType ∧ du.ID = du'.ID) := by
  have hdata : ∀ d : DynamicUnit, d.GetSortKey.data = d.UnitType.data ++ '#' :: d.ID.data := by
    intro d
    show (d.UnitType ++ "#" ++ d.ID).data = _
    rw [stringDataAppend, stringDataAppend, List.append_assoc]
    rfl
  constructor
  · unfold goSplitN2
    rw [hdata du, splitAtHash_append _ _ h]
  · intro heq
    have hd : du.UnitType.data ++ '#' :: du.ID.data = du'.UnitType.data ++ '#' :: du'.ID.data := by
      rw [← hdata du, ← hdata du', heq]
    have hsplit := splitAtHash_append du.UnitType.data du.ID.data h
    rw [hd, splitAtHash_append du'.UnitType.data du'.ID.data h'] at hsplit
    have ht : du'.UnitType.data = du.UnitType.data := congrArg Prod.fst (Option.some.inj hsplit)
    have hi : du'.ID.data = du.ID.data := congrArg Prod.snd (Option.some.inj hsplit)
    exact ⟨(stringDataInj ht).symm, (stringDataInj hi).symm⟩

/-- C7 amended, witnessed at a concrete separator-free pair. -/
theorem sortKey_reconstructible_witness :
    goSplitN2 (DynamicUnit.GetSortKey
      { ID := "id-1", AccountID := "acct", UnitType := "commercialVehicleType",
        CreatedAt := 0, UpdatedAt := 0, DeletedAt := 0, Data := [] })
      = ["commercialVehicleType", "id-1"] :=
  (sortKey_reconstructible_and_injective
    { ID := "id-1", AccountID := "acct", UnitType := "commercialVehicleType",
      CreatedAt := 0, UpdatedAt := 0, DeletedAt := 0, Data := [] }
    { ID := "id-1", AccountID := "acct", UnitType := "commercialVehicleType",
      CreatedAt := 0, UpdatedAt := 0, DeletedAt := 0, Data := [] }
    (by decide) (by decide)).1

/-- Writing a key then reading it gives the written value. -/
theorem alookup_mapPut_self (m : GoMap) (k : String) (v : GoVal) :
    alookup (mapPut m k v) k = some v := by
  induction m with
  | nil => simp [mapPut, alookup]
  | cons p rest ih =>
    obtain ⟨k', v'⟩ := p
    by_cases h : k' = k
    · simp [mapPut, h, alookup]
    · simp [mapPut, h, alookup, ih]

/-- Writing one key leaves every other key's binding unchanged. -/
theorem alookup_mapPut_ne (m : GoMap) (k : String) (v : GoVal) (k' : String)
    (h : k' ≠ k) : alookup (mapPut m k v) k' = alookup m k' := by
  have hkk : ¬ k = k' := fun hh => h hh.symm
  induction m with
  | nil => simp [mapPut, alookup, hkk]
  | cons p rest ih =>
    obtain ⟨k0, v0⟩ := p
    by_cases h0 : k0 = k
    · subst h0
      simp [mapPut, alookup, hkk]
    · simp only [mapPut, if_neg h0, alookup]
      by_cases h1 : k0 = k'
      · simp [h1]
      · simp [h1, ih]

/-- Heap writes preserve the heap's extent. -/
theorem heapSet_length (h : Heap) (r : Nat) (m : GoMap) :
    (heapSet h r m).length = h.length := by
  induction h generalizing r with
  | nil => rfl
  | cons x t ih =>
    cases r with
    | zero => rfl
    | succ r => simp [heapSet, ih]

/-- Reading a reference after writing it gives the written map. -/
theorem heapGet_heapSet_self (h : Heap) (r : Nat) (m : GoMap) (hr : r < h.length) :
    heapGet (heapSet h r m) r = m := by
  induction h generalizing r with
  | nil => simp at hr
  | cons x t ih =>
    cases r with
    | zero => rfl
    | succ r =>
      have : r < t.length := by simpa using hr
      simpa [heapSet, heapGet] using ih r this

/-- Writing one reference leaves every other reference unchanged. -/
theorem heapGet_heapSet_ne (h : Heap) (r : Nat) (m : GoMap) (r' : Nat) (hne : r' ≠ r) :
    heapGet (heapSet h r m) r' = heapGet h r' := by
  induction h generalizing r r' with
  | nil => rfl
  | cons x t ih =>
    cases r with
    | zero =>
      cases r' with
      | zero => exact absurd rfl hne
      | succ r' => rfl
    | succ r =>
      cases r' with
      | zero => rfl
      | succ r' =>
        simpa [heapSet, heapGet] using ih r r' (fun hh => hne (by omega))

/-- Alphabet characters decode back to their sextet. -/
theorem b64Val_b64Char : ∀ n, n < 64 → b64Val (b64Char n) = some n := by decide

/-- Alphabet characters are never the padding character. -/
theorem b64Char_ne_pad : ∀ n, n < 64 → b64Char n ≠ '=' := by decide

/-- Decoding inverts encoding, group by group. -/
theorem b64_roundtrip_aux : ∀ (k : Nat) (bs : List Nat), bs.length ≤ k →
    (∀ b ∈ bs, b < 256) → b64decodeChars (b64encodeChars bs) = .ok bs := by
  intro k
  induction k with
  | zero =>
    intro bs hlen h
    have hb : bs = [] := List.eq_nil_of_length_eq_zero (Nat.le_zero.mp hlen)
    subst hb
    rfl
  | succ k ih =>
    intro bs hlen h
    match bs with
    | [] => rfl
    | [b0] =>
      have hb0 : b0 < 256 := h b0 (by simp)
      have h1 : b0 / 4 < 64 := by omega
      have h2 : b0 % 4 * 16 < 64 := by omega
      simp only [b64encodeChars, b64decodeChars, b64Val_b64Char _ h1, b64Val_b64Char _ h2,
        if_pos rfl, and_self]
      have : b0 / 4 * 4 + b0 % 4 * 16 / 16 = b0 := by omega
      rw [this]
      simp
    | [b0, b1] =>
      have hb0 : b0 < 256 := h b0 (by simp)
      have hb1 : b1 < 256 := h b1 (by simp)
      have h1 : b0 / 4 < 64 := by omega
      have h2 : b0 % 4 * 16 + b1 / 16 < 64 := by omega
      have h3 : b1 % 16 * 4 < 64 := by omega
      simp only [b64encodeChars, b64decodeChars, b64Val_b64Char _ h1, b64Val_b64Char _ h2,
        b64Val_b64Char _ h3, if_neg (b64Char_ne_pad _ h3), if_pos rfl]
      have e1 : b0 / 4 * 4 + (b0 % 4 * 16 + b1 / 16) / 16 = b0 := by omega
      have e2 : (b0 % 4 * 16 + b1 / 16) % 16 * 16 + b1 % 16 * 4 / 4 = b1 := by omega
      rw [e1, e2]
      simp
    | b0 :: b1 :: b2 :: b3 :: rest =>
      have hb0 : b0 < 256 := h b0 (by simp)
      have hb1 : b1 < 256 := h b1 (by simp)
      have hb2 : b2 < 256 := h b2 (by simp)
      have h1 : b0 / 4 < 64 := by omega
      have h2 : b0 % 4 * 16 + b1 / 16 < 64 := by omega
      have h3 : b1 % 16 * 4 + b2 / 64 < 64 := by omega
      have h4 : b2 % 64 < 64 := by omega
      have hrest : (b3 :: rest).length ≤ k := by
        simp at hlen ⊢
        omega
      have hmem : ∀ b ∈ b3 :: rest, b < 256 := by
        intro b hb
        exact h b (by simp [hb])
      simp only [b64encodeChars, b64decodeChars, b64Val_b64Char _ h1, b64Val_b64Char _ h2,
        b64Val_b64Char _ h3, b64Val_b64Char _ h4, if_neg (b64Char_ne_pad _ h3),
        if_neg (b64Char_ne_pad _ h4), ih (b3 :: rest) hrest hmem]
      have e1 : b0 / 4 * 4 + (b0 % 4 * 16 + b1 / 16) / 16 = b0 := by omega
      have e2 : (b0 % 4 * 16 + b1 / 16) % 16 * 16 + (b1 % 16 * 4 + b2 / 64) / 4 = b1 := by
        omega
      have e3 : (b1 % 16 * 4 + b2 / 64) % 4 * 64 + b2 % 64 = b2 := by omega
      rw [e1, e2, e3]
    | [b0, b1, b2] =>
      have hb0 : b0 < 256 := h b0 (by simp)
      have hb1 : b1 < 256 := h b1 (by simp)
      have hb2 : b2 < 256 := h b2 (by simp)
      have h1 : b0 / 4 < 64 := by omega
      have h2 : b0 % 4 * 16 + b1 / 16 < 64 := by omega
      have h3 : b1 % 16 * 4 + b2 / 64 < 64 := by omega
      have h4 : b2 % 64 < 64 := by omega
      simp only [b64encodeChars, b64decodeChars, b64Val_b64Char _ h1, b64Val_b64Char _ h2,
        b64Val_b64Char _ h3, b64Val_b64Char _ h4, if_neg (b64Char_ne_pad _ h3),
        if_neg (b64Char_ne_pad _ h4)]
      have e1 : b0 / 4 * 4 + (b0 % 4 * 16 + b1 / 16) / 16 = b0 := by omega
      have e2 : (b0 % 4 * 16 + b1 / 16) % 16 * 16 + (b1 % 16 * 4 + b2 / 64) / 4 = b1 := by
        omega
      have e3 : (b1 % 16 * 4 + b2 / 64) % 4 * 64 + b2 % 64 = b2 := by omega
      rw [e1, e2, e3]

/-- Transport-decoding a transport-encoded byte string gives it back. -/
theorem b64decode_b64encode (bs : List Nat) (h : ∀ b ∈ bs, b < 256) :
    b64decode (b64encode bs) = .ok bs :=
  b64_roundtrip_aux bs.length bs le_rfl h

/-- Hexadecimal digits decode back to their value. -/
theorem hexVal_hexByte : ∀ k, k < 16 → hexVal (hexByte k) = some k := by decide

/-- Every code point fits below the Unicode bound. -/
theorem charToNatLt (c : Char) : c.toNat < 1114112 := by
  have h := c.valid
  have he : c.toNat = c.val.toNat := rfl
  rcases h with h | h <;> omega

/-- No character is a surrogate code point. -/
theorem charNotSurrogate (c : Char) : ¬ (55296 ≤ c.toNat ∧ c.toNat < 57344) := by
  have h := c.valid
  have he : c.toNat = c.val.toNat := rfl
  rcases h with h | h <;> omega

/-- Reduction of the string-body parser at one leading byte. -/
theorem parseStringBody_cons (b : Nat) (l : List Nat) :
    parseStringBody (b :: l) =
      if b = 34 then .ok ([], l)
      else if b = 92 then parseEscape l
      else if b < 128 then consChar (Char.ofNat b) (parseStringBody l)
      else if b < 194 then .error "invalid UTF-8 byte"
      else if b < 224 then parseCont1 b l
      else if b < 240 then parseCont2 b l
      else if b < 245 then parseCont3 b l
      else .error "invalid UTF-8 byte" := by
  conv_lhs => rw [parseStringBody.eq_def]

/-- Reduction of the escape parser at one leading byte. -/
theorem parseEscape_cons (e : Nat) (l : List Nat) :
    parseEscape (e :: l) =
      if e = 34 then consChar (Char.ofNat 34) (parseStringBody l)
      else if e = 92 then consChar (Char.ofNat 92) (parseStringBody l)
      else if e = 47 then consChar (Char.ofNat 47) (parseStringBody l)
      else if e = 98 then consChar (Char.ofNat 8) (parseStringBody l)
      else if e = 102 then consChar (Char.ofNat 12) (parseStringBody l)
      else if e = 110 then consChar (Char.ofNat 10) (parseStringBody l)
      else if e = 114 then consChar (Char.ofNat 13) (parseStringBody l)
      else if e = 116 then consChar (Char.ofNat 9) (parseStringBody l)
      else if e = 117 then parseEscapeU l
      else .error "invalid escape" := by
  conv_lhs => rw [parseEscape.eq_def]

/-- Reduction of the hexadecimal-escape parser at four leading bytes. -/
theorem parseEscapeU_cons (a b c d : Nat) (l : List Nat) :
    parseEscapeU (a :: b :: c :: d :: l) =
      match hexVal4 a b c d with
      | some n =>
        if 55296 ≤ n ∧ n < 57344 then .error "surrogate escapes not modelled"
        else consChar (Char.ofNat n) (parseStringBody l)
      | none => .error "invalid hexadecimal escape" := by
  conv_lhs => rw [parseEscapeU.eq_def]

/-- Reduction of the two-byte continuation parser. -/
theorem parseCont1_cons (b b2 : Nat) (l : List Nat) :
    parseCont1 b (b2 :: l) =
      if 128 ≤ b2 ∧ b2 < 192 then
        consChar (Char.ofNat ((b - 192) * 64 + (b2 - 128))) (parseStringBody l)
      else .error "invalid UTF-8 continuation" := by
  conv_lhs => rw [parseCont1.eq_def]

/-- Reduction of the three-byte continuation parser. -/
theorem parseCont2_cons (b b2 b3 : Nat) (l : List Nat) :
    parseCont2 b (b2 :: b3 :: l) =
      if (128 ≤ b2 ∧ b2 < 192) ∧ (128 ≤ b3 ∧ b3 < 192) then
        consChar (Char.ofNat ((b - 224) * 4096 + (b2 - 128) * 64 + (b3 - 128)))
          (parseStringBody l)
      else .error "invalid UTF-8 continuation" := by
  conv_lhs => rw [parseCont2.eq_def]

/-- Reduction of the four-byte continuation parser. -/
theorem parseCont3_cons (b b2 b3 b4 : Nat) (l : List Nat) :
    parseCont3 b (b2 :: b3 :: b4 :: l) =
      if (128 ≤ b2 ∧ b2 < 192) ∧ (128 ≤ b3 ∧ b3 < 192) ∧ (128 ≤ b4 ∧ b4 < 192) then
        consChar (Char.ofNat
            ((b - 240) * 262144 + (b2 - 128) * 4096 + (b3 - 128) * 64 + (b4 - 128)))
          (parseStringBody l)
      else .error "invalid UTF-8 continuation" := by
  conv_lhs => rw [parseCont3.eq_def]

/-- Hexadecimal digit quadruples decode back to their value. -/
theorem hexVal4_hexByte (a b c d : Nat) (ha : a < 16) (hb : b < 16) (hc : c < 16)
    (hd : d < 16) :
    hexVal4 (hexByte a) (hexByte b) (hexByte c) (hexByte d) =
      some (a * 4096 + b * 256 + c * 16 + d) := by
  simp only [hexVal4, hexVal_hexByte _ ha, hexVal_hexByte _ hb, hexVal_hexByte _ hc,
    hexVal_hexByte _ hd]

/-- Parsing one escaped character off the front consumes exactly its
escape bytes and yields the character. -/
theorem parseStringBody_escChar (c : Char) (l : List Nat) :
    parseStringBody (escChar c ++ l) = consChar c (parseStringBody l) := by
  have hofnat : Char.ofNat c.toNat = c := Char.ofNat_toNat c
  by_cases h34 : c.toNat = 34
  · rw [escChar, if_pos h34]
    show parseStringBody (92 :: 34 :: l) = _
    rw [parseStringBody_cons]
    norm_num
    rw [parseEscape_cons]
    norm_num
    rw [show Char.ofNat 34 = c from h34 ▸ hofnat]
  · by_cases h92 : c.toNat = 92
    · rw [escChar, if_neg h34, if_pos h92]
      show parseStringBody (92 :: 92 :: l) = _
      rw [parseStringBody_cons]
      norm_num
      rw [parseEscape_cons]
      norm_num
      rw [show Char.ofNat 92 = c from h92 ▸ hofnat]
    · by_cases h10 : c.toNat = 10
      · rw [escChar, if_neg h34, if_neg h92, if_pos h10]
        show parseStringBody (92 :: 110 :: l) = _
        rw [parseStringBody_cons]
        norm_num
        rw [parseEscape_cons]
        norm_num
        rw [show Char.ofNat 10 = c from h10 ▸ hofnat]
      · by_cases h13 : c.toNat = 13
        · rw [escChar, if_neg h34, if_neg h92, if_neg h10, if_pos h13]
          show parseStringBody (92 :: 114 :: l) = _
          rw [parseStringBody_cons]
          norm_num
          rw [parseEscape_cons]
          norm_num
          rw [show Char.ofNat 13 = c from h13 ▸ hofnat]
        · by_cases h9 : c.toNat = 9
          · rw [escChar, if_neg h34, if_neg h92, if_neg h10, if_neg h13, if_pos h9]
            show parseStringBody (92 :: 116 :: l) = _
            rw [parseStringBody_cons]
            norm_num
            rw [parseEscape_cons]
            norm_num
            rw [show Char.ofNat 9 = c from h9 ▸ hofnat]
          · by_cases hu : c.toNat < 32 ∨ c.toNat = 60 ∨ c.toNat = 62 ∨ c.toNat = 38
                ∨ c.toNat = 8232 ∨ c.toNat = 8233
            · rw [escChar, if_neg h34, if_neg h92, if_neg h10, if_neg h13, if_neg h9,
                if_pos hu]
              have ha : c.toNat / 4096 % 16 < 16 := by omega
              have hb : c.toNat / 256 % 16 < 16 := by omega
              have hc : c.toNat / 16 % 16 < 16 := by omega
              have hd : c.toNat % 16 < 16 := by omega
              have hval : c.toNat / 4096 % 16 * 4096 + c.toNat / 256 % 16 * 256 +
                  c.toNat / 16 % 16 * 16 + c.toNat % 16 = c.toNat := by omega
              rw [escU]
              show parseStringBody (92 :: 117 :: hexByte (c.toNat / 4096 % 16) ::
                hexByte (c.toNat / 256 % 16) :: hexByte (c.toNat / 16 % 16) ::
                hexByte (c.toNat % 16) :: l) = _
              rw [parseStringBody_cons]
              norm_num
              rw [parseEscape_cons]
              norm_num
              simp only [parseEscapeU_cons, hexVal4_hexByte _ _ _ _ ha hb hc hd]
              rw [if_neg (by rw [hval]; omega), hval, hofnat]
            · rw [escChar, if_neg h34, if_neg h92, if_neg h10, if_neg h13, if_neg h9,
                if_neg hu]
              have hbig := charToNatLt c
              by_cases hr1 : c.toNat < 128
              · rw [utf8Char, if_pos hr1]
                show parseStringBody (c.toNat :: l) = _
                rw [parseStringBody_cons, if_neg h34, if_neg h92, if_pos hr1, hofnat]
              · by_cases hr2 : c.toNat < 2048
                · rw [utf8Char, if_neg hr1, if_pos hr2]
                  show parseStringBody ((192 + c.toNat / 64) :: (128 + c.toNat % 64) :: l)
                    = _
                  rw [parseStringBody_cons, if_neg (by omega), if_neg (by omega),
                    if_neg (by omega), if_neg (by omega), if_pos (by omega),
                    parseCont1_cons, if_pos (by omega)]
                  have hv : (192 + c.toNat / 64 - 192) * 64 + (128 + c.toNat % 64 - 128)
                      = c.toNat := by omega
                  rw [hv, hofnat]
                · by_cases hr3 : c.toNat < 65536
                  · rw [utf8Char, if_neg hr1, if_neg hr2, if_pos hr3]
                    show parseStringBody ((224 + c.toNat / 4096) ::
                      (128 + c.toNat / 64 % 64) :: (128 + c.toNat % 64) :: l) = _
                    rw [parseStringBody_cons, if_neg (by omega), if_neg (by omega),
                      if_neg (by omega), if_neg (by omega), if_neg (by omega),
                      if_pos (by omega), parseCont2_cons, if_pos (by omega)]
                    have hv : (224 + c.toNat / 4096 - 224) * 4096 +
                        (128 + c.toNat / 64 % 64 - 128) * 64 + (128 + c.toNat % 64 - 128)
                        = c.toNat := by omega
                    rw [hv, hofnat]
                  · rw [utf8Char, if_neg hr1, if_neg hr2, if_neg hr3]
                    show parseStringBody ((240 + c.toNat / 262144) ::
                      (128 + c.toNat / 4096 % 64) :: (128 + c.toNat / 64 % 64) ::
                      (128 + c.toNat % 64) :: l) = _
                    rw [parseStringBody_cons, if_neg (by omega), if_neg (by omega),
                      if_neg (by omega), if_neg (by omega), if_neg (by omega),
                      if_neg (by omega), if_pos (by omega), parseCont3_cons,
                      if_pos (by omega)]
                    have hv : (240 + c.toNat / 262144 - 240) * 262144 +
                        (128 + c.toNat / 4096 % 64 - 128) * 4096 +
                        (128 + c.toNat / 64 % 64 - 128) * 64 + (128 + c.toNat % 64 - 128)
                        = c.toNat := by omega
                    rw [hv, hofnat]

/-- Parsing the serialized body of a string gives back its characters
and the bytes after the closing quote. -/
theorem parseStringBody_escString (cs : List Char) (rest : List Nat) :
    parseStringBody (escString cs ++ 34 :: rest) = .ok (cs, rest) := by
  induction cs with
  | nil =>
    rw [escString]
    show parseStringBody (34 :: rest) = _
    rw [parseStringBody]
    norm_num
  | cons c cs ih =>
    rw [escString, List.append_assoc, parseStringBody_escChar, ih]
    rfl

/-- Marshalling commutes with lookup. -/
theorem alookup_marshalMap (m : GoMap) (k : String) :
    alookup (marshalMap m) k = (alookup m k).map marshalVal := by
  induction m with
  | nil => rfl
  | cons p rest ih =>
    obtain ⟨k0, v0⟩ := p
    by_cases h : k0 = k
    · simp [marshalMap, alookup, h]
    · simp only [marshalMap, alookup, if_neg h]
      simpa [marshalMap] using ih

/-- Unmarshalling commutes with lookup. -/
theorem alookup_unmarshalMap (it : Item) (k : String) :
    alookup (unmarshalMap it) k = (alookup it k).map unmarshalVal := by
  induction it with
  | nil => rfl
  | cons p rest ih =>
    obtain ⟨k0, v0⟩ := p
    by_cases h : k0 = k
    · simp [unmarshalMap, alookup, h]
    · simp only [unmarshalMap, alookup, if_neg h]
      simpa [unmarshalMap] using ih

/-- A key that looks up to nothing heads no entry. -/
theorem alookup_eq_none_keys (m : GoMap) (k : String) (h : alookup m k = none) :
    ∀ p ∈ m, p.1 ≠ k := by
  induction m with
  | nil => intro p hp; simp at hp
  | cons q rest ih =>
    obtain ⟨k0, v0⟩ := q
    intro p hp
    rcases List.mem_cons.mp hp with h1 | h1
    · subst h1
      intro hk
      rw [alookup, if_pos hk] at h
      exact Option.noConfusion h
    · by_cases hk : k0 = k
      · rw [alookup, if_pos hk] at h
        exact absurd h (by simp)
      · rw [alookup, if_neg hk] at h
        exact ih h p h1

/-- A skip-aware fold of map writes leaves alone every key that each
entry either skips or does not carry. -/
theorem alookup_foldl_put_skip (excl : String → Bool) (l : GoMap) (init : GoMap)
    (k : String) (h : ∀ p ∈ l, p.1 ≠ k ∨ excl p.1 = true) :
    alookup (l.foldl (fun acc p => if excl p.1 then acc else mapPut acc p.1 p.2) init) k
      = alookup init k := by
  induction l generalizing init with
  | nil => rfl
  | cons p rest ih =>
    obtain ⟨k0, v0⟩ := p
    have hrest : ∀ q ∈ rest, q.1 ≠ k ∨ excl q.1 = true :=
      fun q hq => h q (List.mem_cons_of_mem _ hq)
    by_cases hx : excl k0
    · simp only [List.foldl_cons, if_pos hx]
      exact ih _ hrest
    · simp only [List.foldl_cons, if_neg hx]
      rw [ih _ hrest]
      rcases h (k0, v0) (List.mem_cons_self _ _) with h1 | h1
      · exact alookup_mapPut_ne _ _ _ _ (fun hh => h1 hh.symm)
      · exact absurd h1 (by simpa using hx)

/-- The storage map carries `pk = accountId` whenever the data bag holds
no raw `pk` entry. -/
theorem ToMap_pk (du : DynamicUnit) (h : alookup du.Data "pk" = none) :
    alookup du.ToMap "pk" = some (.str du.AccountID) := by
  unfold DynamicUnit.ToMap
  rw [alookup_foldl_put_skip _ _ _ _
    (fun p hp => Or.inl (alookup_eq_none_keys _ _ h p hp))]
  simp [alookup]

/-- The storage map carries `sk = GetSortKey` whenever the data bag holds
no raw `sk` entry. -/
theorem ToMap_sk (du : DynamicUnit) (h : alookup du.Data "sk" = none) :
    alookup du.ToMap "sk" = some (.str du.GetSortKey) := by
  unfold DynamicUnit.ToMap
  rw [alookup_foldl_put_skip _ _ _ _
    (fun p hp => Or.inl (alookup_eq_none_keys _ _ h p hp))]
  simp [alookup]

/-- The storage map always carries the managed `deletedAt` value — the
data bag's own `deletedAt` entry, if any, is skipped. -/
theorem ToMap_deletedAt (du : DynamicUnit) :
    alookup du.ToMap "deletedAt" = some (.int du.DeletedAt) := by
  unfold DynamicUnit.ToMap
  rw [alookup_foldl_put_skip _ _ _ _ ?_]
  · simp [alookup]
  · intro p hp
    by_cases hk : p.1 = "deletedAt"
    · right
      rw [hk]
      rfl
    · exact Or.inl hk

/-- The composite key of a marshalled map with string `pk`/`sk`. -/
theorem itemKey_marshal (m : GoMap) (a s : String)
    (hpk : alookup m "pk" = some (.str a)) (hsk : alookup m "sk" = some (.str s)) :
    itemKey (marshalMap m) = some (a, s) := by
  unfold itemKey
  rw [alookup_marshalMap, alookup_marshalMap, hpk, hsk]
  rfl

/-- A found item carries the key it was found under. -/
theorem storeGet_some_key (st : Store) (pk sk : String) (it : Item)
    (h : storeGet st pk sk = some it) : itemKey it = some (pk, sk) := by
  have := List.find?_some h
  simpa using this

/-- The `pk`/`sk` attributes of an item with a known composite key. -/
theorem itemKey_attrs (it : Item) (pk sk : String) (h : itemKey it = some (pk, sk)) :
    alookup it "pk" = some (.S pk) ∧ alookup it "sk" = some (.S sk) := by
  unfold itemKey at h
  rcases hp : alookup it "pk" with _ | vp
  · rw [hp] at h; exact absurd h (by simp)
  · rcases hs : alookup it "sk" with _ | vs
    · rw [hp, hs] at h
      cases vp <;> exact absurd h (by simp)
    · rw [hp, hs] at h
      cases vp <;> cases vs <;> simp_all

/-- Reading the key just written finds the written item. -/
theorem storeGet_storePut_self (st : Store) (item : Item) (pk sk : String)
    (h : itemKey item = some (pk, sk)) :
    storeGet (storePut st item) pk sk = some item := by
  induction st with
  | nil => simp [storePut, storeGet, List.find?, h]
  | cons it0 rest ih =>
    by_cases h0 : itemKey it0 = itemKey item
    · simp [storePut, h0, storeGet, List.find?, h]
    · rw [storePut]
      rw [if_neg h0]
      have hne : ¬ itemKey it0 = some (pk, sk) := by
        rw [h] at h0; exact h0
      simp only [storeGet, List.find?]
      rw [decide_eq_false hne]
      exact ih

/-- A successful schema load leaves the resulting cache stable: loading
again returns the same compiled schema and the same cache. -/
theorem loadSchema_stable (compile : String → Except String Schema)
    (cache : SchemaCache) (t : String) (s : Schema) (c' : SchemaCache)
    (h : loadSchema compile cache t = (.ok s, c')) :
    loadSchema compile c' t = (.ok s, c') := by
  unfold loadSchema at h ⊢
  rcases hc : alookup cache t with _ | s0
  · rw [hc] at h
    by_cases ht : t = "commercialVehicleType"
    · rw [if_neg (by simp [ht])] at h
      rcases hcomp : compile commercialVehicleTypeSchema with e | s1
      · rw [hcomp] at h
        exact absurd h (by simp)
      · rw [hcomp] at h
        simp only [Prod.mk.injEq, Except.ok.injEq] at h
        obtain ⟨hs, hcache⟩ := h
        rw [← hcache, alookup, if_pos rfl, hs]
    · rw [if_pos ht] at h
      exact absurd h (by simp)
  · rw [hc] at h
    simp only [Prod.mk.injEq, Except.ok.injEq] at h
    obtain ⟨hs, hcache⟩ := h
    rw [← hcache, hc, hs]

/-- Splitting at the first separator recovers a separator-free left
part. -/
theorem goSplitN2_append (t i : String) (h : '#' ∉ t.data) :
    goSplitN2 (t ++ "#" ++ i) = [t, i] := by
  unfold goSplitN2
  have hdata : (t ++ "#" ++ i).data = t.data ++ '#' :: i.data := by
    rw [stringDataAppend, stringDataAppend, List.append_assoc]
    rfl
  rw [hdata, splitAtHash_append _ _ h]

/-- A composite sort key is never the empty string. -/
theorem sortKeyNeEmpty (t i : String) : t ++ "#" ++ i ≠ "" := by
  intro h
  have hd := congrArg String.data h
  rw [stringDataAppend, stringDataAppend] at hd
  simp at hd

/-- The rebuilt data bag never carries the raw key attributes. -/
theorem fromMap_data_no_keys (du : DynamicUnit) (data : GoMap) :
    alookup (du.FromMap data).Data "pk" = none ∧
    alookup (du.FromMap data).Data "sk" = none := by
  constructor
  · show alookup (data.foldl
      (fun acc p => if DynamicUnit.fromMapDropped p.1 then acc else mapPut acc p.1 p.2) []) "pk"
      = none
    rw [alookup_foldl_put_skip _ _ _ _ ?_]
    · rfl
    · intro p hp
      by_cases hk : p.1 = "pk"
      · right; rw [hk]; rfl
      · exact Or.inl hk
  · show alookup (data.foldl
      (fun acc p => if DynamicUnit.fromMapDropped p.1 then acc else mapPut acc p.1 p.2) []) "sk"
      = none
    rw [alookup_foldl_put_skip _ _ _ _ ?_]
    · rfl
    · intro p hp
      by_cases hk : p.1 = "sk"
      · right; rw [hk]; rfl
      · exact Or.inl hk

/-- C9: an unknown unit type is rejected with no cache entry created; a
supported unit type is compiled on first call and stored in the cache;
any cached unit type is served from the cache, which stays unchanged. -/
theorem loadSchema_cache_contract :
    (∀ (compile : String → Except String Schema) (cache : SchemaCache) (t : String),
      t ∉ GetAvailableUnitTypes → alookup cache t = none →
      loadSchema compile cache t = (.error ("unsupported unit type: " ++ t), cache)) ∧
    (∀ (compile : String → Except String Schema) (cache : SchemaCache) (s : Schema),
      alookup cache "commercialVehicleType" = none →
      compile commercialVehicleTypeSchema = .ok s →
      loadSchema compile cache "commercialVehicleType" =
        (.ok s, ("commercialVehicleType", s) :: cache)) ∧
    (∀ (compile : String → Except String Schema) (cache : SchemaCache)
      (t : String) (s : Schema),
      alookup cache t = some s →
      loadSchema compile cache t = (.ok s, cache)) := by
  refine ⟨?_, ?_, ?_⟩
  · intro compile cache t ht hc
    have hne : t ≠ "commercialVehicleType" := by
      simpa [GetAvailableUnitTypes] using ht
    simp [loadSchema, hc, hne]
  · intro compile cache s hc hcomp
    simp [loadSchema, hc, hcomp]
  · intro compile cache t s hc
    simp [loadSchema, hc]

/-- C9 witnessed on concrete cache states. -/
theorem loadSchema_cache_contract_witness :
    loadSchema (fun src => .ok ⟨src⟩) [] "bogusType"
      = (.error ("unsupported unit type: " ++ "bogusType"), []) ∧
    loadSchema (fun src => .ok ⟨src⟩) [] "commercialVehicleType"
      = (.ok ⟨commercialVehicleTypeSchema⟩,
         [("commercialVehicleType", ⟨commercialVehicleTypeSchema⟩)]) ∧
    loadSchema (fun src => .ok ⟨src⟩)
      [("commercialVehicleType", ⟨commercialVehicleTypeSchema⟩)] "commercialVehicleType"
      = (.ok ⟨commercialVehicleTypeSchema⟩,
         [("commercialVehicleType", ⟨commercialVehicleTypeSchema⟩)]) :=
  ⟨loadSchema_cache_contract.1 _ _ _ (by decide) rfl,
   loadSchema_cache_contract.2.1 _ _ _ rfl rfl,
   loadSchema_cache_contract.2.2 _ _ _ _ rfl⟩

/-- C10: a successful ValidateAndSetData call with non-empty identifiers
writes the `id` and `accountId` keys into the very map the caller passed
(every other map reference untouched), and installs that same map
reference — not a copy — as the unit's data bag. -/
theorem validateAndSetData_in_place
    (check : GoMap → Except String (List String))
    (h : Heap) (du : DynamicUnitRef) (r : Nat)
    (hr : r < h.length) (hacc : du.AccountID ≠ "") (hid : du.ID ≠ "")
    (h' : Heap) (du' : DynamicUnitRef)
    (hok : ValidateAndSetData check h du r = .ok (h', du')) :
    du'.DataRef = r ∧
    alookup (heapGet h' r) "id" = some (.str du.ID) ∧
    alookup (heapGet h' r) "accountId" = some (.str du.AccountID) ∧
    (∀ r', r' ≠ r → heapGet h' r' = heapGet h r') ∧
    du' = { du with DataRef := r } := by
  have hv1 : vasdHeap1 h du r
      = heapSet h r (mapPut (heapGet h r) "accountId" (.str du.AccountID)) := by
    rw [vasdHeap1, if_neg hacc]
  have hv2 : vasdHeap2 h du r
      = heapSet (vasdHeap1 h du r) r
          (mapPut (heapGet (vasdHeap1 h du r) r) "id" (.str du.ID)) := by
    rw [vasdHeap2, if_neg hid]
  have hr1 : r < (vasdHeap1 h du r).length := by
    rw [hv1, heapSet_length]; exact hr
  unfold ValidateAndSetData at hok
  split at hok
  · exact absurd hok (by simp)
  · simp only [Except.ok.injEq, Prod.mk.injEq] at hok
    obtain ⟨hh, hdu⟩ := hok
    subst hh
    subst hdu
    refine ⟨rfl, ?_, ?_, ?_, rfl⟩
    · rw [hv2, heapGet_heapSet_self _ _ _ hr1]
      exact alookup_mapPut_self _ _ _
    · rw [hv2, heapGet_heapSet_self _ _ _ hr1]
      rw [alookup_mapPut_ne _ _ _ _ (by decide), hv1]
      rw [heapGet_heapSet_self _ _ _ hr]
      exact alookup_mapPut_self _ _ _
    · intro r' hne
      rw [hv2, heapGet_heapSet_ne _ _ _ _ hne, hv1, heapGet_heapSet_ne _ _ _ _ hne]
  · exact absurd hok (by simp)

/-- C10 witnessed on a concrete heap, unit and reference. -/
theorem validateAndSetData_in_place_witness :
    ({ ID := "u1", AccountID := "a1", UnitType := "commercialVehicleType",
       CreatedAt := 0, UpdatedAt := 0, DeletedAt := 0, DataRef := 0 } : DynamicUnitRef).DataRef = 0 ∧
    alookup (heapGet [[("accountId", GoVal.str "a1"), ("id", GoVal.str "u1")]] 0) "id"
      = some (.str "u1") ∧
    alookup (heapGet [[("accountId", GoVal.str "a1"), ("id", GoVal.str "u1")]] 0) "accountId"
      = some (.str "a1") ∧
    (∀ r', r' ≠ 0 →
      heapGet [[("accountId", GoVal.str "a1"), ("id", GoVal.str "u1")]] r' = heapGet [[]] r') ∧
    ({ ID := "u1", AccountID := "a1", UnitType := "commercialVehicleType",
       CreatedAt := 0, UpdatedAt := 0, DeletedAt := 0, DataRef := 0 } : DynamicUnitRef)
      = { ID := "u1", AccountID := "a1", UnitType := "commercialVehicleType",
          CreatedAt := 0, UpdatedAt := 0, DeletedAt := 0, DataRef := 0 } :=
  validateAndSetData_in_place (fun _ => .ok []) [[]]
    { ID := "u1", AccountID := "a1", UnitType := "commercialVehicleType",
      CreatedAt := 0, UpdatedAt := 0, DeletedAt := 0, DataRef := 0 } 0
    (by decide) (by decide) (by decide)
    [[("accountId", GoVal.str "a1"), ("id", GoVal.str "u1")]]
    { ID := "u1", AccountID := "a1", UnitType := "commercialVehicleType",
      CreatedAt := 0, UpdatedAt := 0, DeletedAt := 0, DataRef := 0 }
    (by rfl)

/-- FromMap takes the id from the stored map. -/
theorem fromMap_ID (du : DynamicUnit) (data : GoMap) (s : String)
    (h : alookup data "id" = some (.str s)) : (du.FromMap data).ID = s := by
  simp [DynamicUnit.FromMap, h]

/-- FromMap takes the account from the stored partition key. -/
theorem fromMap_AccountID (du : DynamicUnit) (data : GoMap) (s : String)
    (h : alookup data "pk" = some (.str s)) : (du.FromMap data).AccountID = s := by
  simp [DynamicUnit.FromMap, h]

/-- FromMap takes the unit type from the `unitType` attribute when it is
a string. -/
theorem fromMap_UnitType (du : DynamicUnit) (data : GoMap) (s : String)
    (h : alookup data "unitType" = some (.str s)) : (du.FromMap data).UnitType = s := by
  simp [DynamicUnit.FromMap, h]

/-- FromMap takes `deletedAt` from the stored map when it is an integer. -/
theorem fromMap_DeletedAt (du : DynamicUnit) (data : GoMap) (n : Int)
    (h : alookup data "deletedAt" = some (.int n)) : (du.FromMap data).DeletedAt = n := by
  simp [DynamicUnit.FromMap, h]

/-- FromMap keeps the receiver's `deletedAt` when the attribute is
absent. -/
theorem fromMap_DeletedAt_default (du : DynamicUnit) (data : GoMap)
    (h : alookup data "deletedAt" = none) : (du.FromMap data).DeletedAt = du.DeletedAt := by
  simp [DynamicUnit.FromMap, h]

/-- GetByKey on a present item under a well-formed sort key reduces to
the soft-delete test over the rebuilt unit. -/
theorem dynGetByKey_found (compile : String → Except String Schema)
    (cache : SchemaCache) (st : Store) (acc t i : String) (item : Item)
    (s : Schema) (c' : SchemaCache)
    (h1 : acc ≠ "") (ht : '#' ∉ t.data)
    (hget : storeGet st acc (t ++ "#" ++ i) = some item)
    (hload : loadSchema compile cache t = (.ok s, c')) :
    dynGetByKey compile cache st acc (t ++ "#" ++ i)
      = if ((emptyUnit t).FromMap (unmarshalMap item)).IsDeleted then (.ok none, c')
        else (.ok (some ((emptyUnit t).FromMap (unmarshalMap item))), c') := by
  simp only [dynGetByKey, if_neg h1, if_neg (sortKeyNeEmpty t i), hget,
    goSplitN2_append t i ht, NewDynamicUnit, hload]

/-- Unmarshalled items never carry an int64: every `N` attribute decodes
to a float64. -/
theorem unmarshal_deletedAt_not_int (it : Item) (n : Int) :
    alookup (unmarshalMap it) "deletedAt" ≠ some (.int n) := by
  rw [alookup_unmarshalMap]
  cases h : alookup it "deletedAt" with
  | none => simp
  | some v => cases v <;> simp [unmarshalVal]

/-- FromMap's `.(int64)` assertion keeps the receiver's `deletedAt`
whenever the map's value is not an int64. -/
theorem fromMap_DeletedAt_nonint (du : DynamicUnit) (data : GoMap)
    (h : ∀ n, alookup data "deletedAt" ≠ some (.int n)) :
    (du.FromMap data).DeletedAt = du.DeletedAt := by
  cases hda : alookup data "deletedAt" with
  | none => simp [DynamicUnit.FromMap, hda]
  | some v =>
    cases v with
    | int n => exact absurd hda (h n)
    | str s => simp [DynamicUnit.FromMap, hda]
    | float s => simp [DynamicUnit.FromMap, hda]
    | boolean b => simp [DynamicUnit.FromMap, hda]
    | null => simp [DynamicUnit.FromMap, hda]

/-- A unit rebuilt from any stored item carries `deletedAt` 0: the
stored numeral decodes to a float64 and the int64 assertion fails. -/
theorem fromMap_store_DeletedAt (t : String) (it : Item) :
    ((emptyUnit t).FromMap (unmarshalMap it)).DeletedAt = 0 := by
  rw [fromMap_DeletedAt_nonint _ _ (fun n => unmarshal_deletedAt_not_int it n)]
  rfl

/-- C4: the claim says both read paths treat an absent item and a
soft-deleted item as "not found" (nil, no error), and that a deleted
record stays invisible.  The absent clauses hold, and the fixed
variant's typed unmarshalling does hide soft-deleted items; but the
dynamic variant unmarshals into `map[string]interface` where every `N`
attribute becomes a float64, so FromMap's int64 assertion on `deletedAt`
fails, the rebuilt unit always carries `deletedAt` 0, and a soft-deleted
item — including one just written by Delete — is returned to the
caller instead of nil.  The last two clauses state that divergence. -/
theorem get_not_found_soft_delete_bug :
    (∀ (compile : String → Except String Schema) (cache : SchemaCache)
      (st : Store) (acc sk : String),
      acc ≠ "" → sk ≠ "" → storeGet st acc sk = none →
      dynGetByKey compile cache st acc sk = (.ok none, cache)) ∧
    (∀ (st : Store) (acc uid ut : String),
      acc ≠ "" → uid ≠ "" → ut ≠ "" →
      storeGet st acc (uid ++ "#" ++ ut) = none →
      fixedGetByKey st acc uid ut = .ok none) ∧
    (∀ (st : Store) (acc uid ut : String) (item : Item),
      acc ≠ "" → uid ≠ "" → ut ≠ "" →
      storeGet st acc (uid ++ "#" ++ ut) = some item →
      softDeletedItem item →
      fixedGetByKey st acc uid ut = .ok none) ∧
    (∀ (compile : String → Except String Schema) (cache : SchemaCache)
      (st : Store) (acc t i : String) (item : Item) (s : Schema) (c' : SchemaCache),
      acc ≠ "" → '#' ∉ t.data →
      storeGet st acc (t ++ "#" ++ i) = some item →
      loadSchema compile cache t = (.ok s, c') →
      softDeletedItem item →
      dynGetByKey compile cache st acc (t ++ "#" ++ i)
          = (.ok (some ((emptyUnit t).FromMap (unmarshalMap item))), c') ∧
        ((emptyUnit t).FromMap (unmarshalMap item)).DeletedAt = 0) ∧
    (∀ (compile : String → Except String Schema) (cache : SchemaCache)
      (st : Store) (now : Int) (acc t i : String) (item0 : Item)
      (s : Schema) (c' : SchemaCache),
      acc ≠ "" → t ≠ "" → i ≠ "" → '#' ∉ t.data → 0 < now →
      loadSchema compile cache t = (.ok s, c') →
      storeGet st acc (t ++ "#" ++ i) = some item0 →
      alookup item0 "id" = some (.S i) →
      alookup item0 "unitType" = some (.S t) →
      ∃ st' u, dynDelete compile cache st now acc t i = (.ok (), st', c') ∧
        (dynGetByKey compile c' st' acc (t ++ "#" ++ i)).1 = .ok (some u) ∧
        u.DeletedAt = 0) := by
  refine ⟨?_, ?_, ?_, ?_, ?_⟩
  · intro compile cache st acc sk h1 h2 hget
    simp [dynGetByKey, h1, h2, hget]
  · intro st acc uid ut h1 h2 h3 hget
    simp [fixedGetByKey, h1, h2, h3, hget]
  · intro st acc uid ut item h1 h2 h3 hget hsoft
    obtain ⟨sArg, n, hda, hsn, hn⟩ := hsoft
    have hisdel : (unmarshalFixedUnit item).IsDeleted = true := by
      simp only [FixedUnit.IsDeleted, unmarshalFixedUnit, hda, hsn]
      simpa using hn
    simp [fixedGetByKey, h1, h2, h3, hget, hisdel]
  · intro compile cache st acc t i item s c' h1 ht hget hload _
    have hnotdel : ((emptyUnit t).FromMap (unmarshalMap item)).IsDeleted = false := by
      simp [DynamicUnit.IsDeleted, fromMap_store_DeletedAt]
    refine ⟨?_, fromMap_store_DeletedAt t item⟩
    rw [dynGetByKey_found compile cache st acc t i item s c' h1 ht hget hload]
    simp [hnotdel]
  · intro compile cache st now acc t i item0 s c' h1 h2 h3 ht hnow hload hget hid hut
    have hkey0 := storeGet_some_key _ _ _ _ hget
    obtain ⟨hpk0, hsk0⟩ := itemKey_attrs _ _ _ hkey0
    have huID : ((emptyUnit t).FromMap (unmarshalMap item0)).ID = i :=
      fromMap_ID _ _ _ (by rw [alookup_unmarshalMap, hid]; rfl)
    have huAcc : ((emptyUnit t).FromMap (unmarshalMap item0)).AccountID = acc :=
      fromMap_AccountID _ _ _ (by rw [alookup_unmarshalMap, hpk0]; rfl)
    have huT : ((emptyUnit t).FromMap (unmarshalMap item0)).UnitType = t :=
      fromMap_UnitType _ _ _ (by rw [alookup_unmarshalMap, hut]; rfl)
    have huNotDel : ((emptyUnit t).FromMap (unmarshalMap item0)).IsDeleted = false := by
      simp [DynamicUnit.IsDeleted, fromMap_store_DeletedAt]
    have hgbk : dynGetByKey compile cache st acc (t ++ "#" ++ i)
        = (.ok (some ((emptyUnit t).FromMap (unmarshalMap item0))), c') := by
      rw [dynGetByKey_found compile cache st acc t i item0 s c' h1 ht hget hload]
      simp [huNotDel]
    have hu2Acc : ((((emptyUnit t).FromMap (unmarshalMap item0)).MarkDeleted now).SetTimestamps
        now).AccountID = acc := huAcc
    have hu2sort : ((((emptyUnit t).FromMap (unmarshalMap item0)).MarkDeleted now).SetTimestamps
        now).GetSortKey = t ++ "#" ++ i := by
      show ((emptyUnit t).FromMap (unmarshalMap item0)).UnitType ++ "#" ++
        ((emptyUnit t).FromMap (unmarshalMap item0)).ID = t ++ "#" ++ i
      rw [huT, huID]
    have hnoPk : alookup ((((emptyUnit t).FromMap (unmarshalMap item0)).MarkDeleted
        now).SetTimestamps now).Data "pk" = none :=
      (fromMap_data_no_keys (emptyUnit t) (unmarshalMap item0)).1
    have hnoSk : alookup ((((emptyUnit t).FromMap (unmarshalMap item0)).MarkDeleted
        now).SetTimestamps now).Data "sk" = none :=
      (fromMap_data_no_keys (emptyUnit t) (unmarshalMap item0)).2
    have hkey1 : itemKey (marshalMap ((((emptyUnit t).FromMap
        (unmarshalMap item0)).MarkDeleted now).SetTimestamps now).ToMap)
        = some (acc, t ++ "#" ++ i) := by
      rw [itemKey_marshal _ _ _ (ToMap_pk _ hnoPk) (ToMap_sk _ hnoSk), hu2Acc, hu2sort]
    have hdelstep : dynDelete compile cache st now acc t i
        = (.ok (), storePut st (marshalMap ((((emptyUnit t).FromMap
            (unmarshalMap item0)).MarkDeleted now).SetTimestamps now).ToMap), c') := by
      simp only [dynDelete, if_neg h1, if_neg h2, if_neg h3, hgbk]
    refine ⟨_, (emptyUnit t).FromMap (unmarshalMap (marshalMap ((((emptyUnit
      t).FromMap (unmarshalMap item0)).MarkDeleted now).SetTimestamps now).ToMap)),
      hdelstep, ?_, fromMap_store_DeletedAt t _⟩
    have hget1 := storeGet_storePut_self st _ _ _ hkey1
    have hload1 := loadSchema_stable _ _ _ _ _ hload
    have hNotDel1 : ((emptyUnit t).FromMap (unmarshalMap (marshalMap ((((emptyUnit
        t).FromMap (unmarshalMap item0)).MarkDeleted now).SetTimestamps
        now).ToMap))).IsDeleted = false := by
      simp [DynamicUnit.IsDeleted, fromMap_store_DeletedAt]
    rw [dynGetByKey_found compile c' _ acc t i _ s c' h1 ht hget1 hload1]
    simp [hNotDel1]

/-- C4 witnessed: absent keys on both variants, the fixed variant hiding
a soft-deleted item, the dynamic variant returning one, and a dynamic
delete-then-read run whose read returns the just-deleted record. -/
theorem get_not_found_soft_delete_bug_witness :
    dynGetByKey (fun src => .ok ⟨src⟩) [] [] "acct-1" "commercialVehicleType#u1"
      = (.ok none, []) ∧
    fixedGetByKey [] "acct-1" "u1" "commercialVehicleType" = .ok none ∧
    fixedGetByKey
      [[("pk", .S "acct-1"), ("sk", .S ("u1" ++ "#" ++ "commercialVehicleType")),
        ("deletedAt", .N "5")]]
      "acct-1" "u1" "commercialVehicleType" = .ok none ∧
    (dynGetByKey (fun src => .ok ⟨src⟩) []
        [[("pk", .S "acct-1"), ("sk", .S ("commercialVehicleType" ++ "#" ++ "u1")),
          ("deletedAt", .N "5")]]
        "acct-1" ("commercialVehicleType" ++ "#" ++ "u1")
        = (.ok (some ((emptyUnit "commercialVehicleType").FromMap (unmarshalMap
            [("pk", .S "acct-1"), ("sk", .S ("commercialVehicleType" ++ "#" ++ "u1")),
             ("deletedAt", .N "5")]))),
           [("commercialVehicleType", ⟨commercialVehicleTypeSchema⟩)]) ∧
      ((emptyUnit "commercialVehicleType").FromMap (unmarshalMap
          [("pk", .S "acct-1"), ("sk", .S ("commercialVehicleType" ++ "#" ++ "u1")),
           ("deletedAt", .N "5")])).DeletedAt = 0) ∧
    (∃ st' u, dynDelete (fun src => .ok ⟨src⟩) []
        [[("pk", .S "acct-1"), ("sk", .S ("commercialVehicleType" ++ "#" ++ "u1")),
          ("id", .S "u1"), ("unitType", .S "commercialVehicleType")]]
        7 "acct-1" "commercialVehicleType" "u1"
        = (.ok (), st', [("commercialVehicleType", ⟨commercialVehicleTypeSchema⟩)]) ∧
      (dynGetByKey (fun src => .ok ⟨src⟩)
        [("commercialVehicleType", ⟨commercialVehicleTypeSchema⟩)] st' "acct-1"
        ("commercialVehicleType" ++ "#" ++ "u1")).1 = .ok (some u) ∧
      u.DeletedAt = 0) :=
  ⟨get_not_found_soft_delete_bug.1 _ _ _ _ _ (by decide) (by decide) rfl,
   get_not_found_soft_delete_bug.2.1 _ _ _ _ (by decide) (by decide) (by decide) rfl,
   get_not_found_soft_delete_bug.2.2.1 _ _ _ _
     [("pk", .S "acct-1"), ("sk", .S ("u1" ++ "#" ++ "commercialVehicleType")),
      ("deletedAt", .N "5")]
     (by decide) (by decide) (by decide) (by decide) ⟨"5", 5, rfl, rfl, by omega⟩,
   get_not_found_soft_delete_bug.2.2.2.1 _ _ _ _ "commercialVehicleType" "u1"
     [("pk", .S "acct-1"), ("sk", .S ("commercialVehicleType" ++ "#" ++ "u1")),
      ("deletedAt", .N "5")]
     ⟨commercialVehicleTypeSchema⟩ _ (by decide) (by decide) (by decide) rfl
     ⟨"5", 5, rfl, rfl, by omega⟩,
   get_not_found_soft_delete_bug.2.2.2.2 _ _ _ 7 "acct-1" "commercialVehicleType" "u1"
     [("pk", .S "acct-1"), ("sk", .S ("commercialVehicleType" ++ "#" ++ "u1")),
      ("id", .S "u1"), ("unitType", .S "commercialVehicleType")]
     ⟨commercialVehicleTypeSchema⟩ _ (by decide) (by decide) (by decide) (by decide)
     (by omega) rfl (by decide) (by decide) (by decide)⟩

/-- C5: Create fails fast — a nil unit, an empty accountId, an empty
unitType, or a schema-validation failure each return an error with no
store call made and the store unchanged. -/
theorem create_fail_fast :
    (∀ (check : GoMap → Except String (List String)) (fresh : String) (now : Int)
      (st : Store),
      dynCreate check fresh now st none = (.error .unitNil, st, [])) ∧
    (∀ (check : GoMap → Except String (List String)) (fresh : String) (now : Int)
      (st : Store) (du : DynamicUnit), du.AccountID = "" →
      dynCreate check fresh now st (some du) = (.error .accountIDRequired, st, [])) ∧
    (∀ (check : GoMap → Except String (List String)) (fresh : String) (now : Int)
      (st : Store) (du : DynamicUnit), du.AccountID ≠ "" → du.UnitType = "" →
      dynCreate check fresh now st (some du) = (.error .unitTypeRequired, st, [])) ∧
    (∀ (check : GoMap → Except String (List String)) (fresh : String) (now : Int)
      (st : Store) (du : DynamicUnit) (e : String),
      du.AccountID ≠ "" → du.UnitType ≠ "" →
      (createUnit2 du fresh now).Validate check = .error e →
      dynCreate check fresh now st (some du) = (.error (.validationFailed e), st, [])) := by
  refine ⟨fun check fresh now st => rfl, ?_, ?_, ?_⟩
  · intro check fresh now st du h
    simp [dynCreate, h]
  · intro check fresh now st du h1 h2
    simp [dynCreate, h1, h2]
  · intro check fresh now st du e h1 h2 hv
    simp [dynCreate, h1, h2, hv]

/-- C5 witnessed on concrete failing inputs. -/
theorem create_fail_fast_witness :
    dynCreate (fun _ => .ok []) "u1" 7 [] none = (.error .unitNil, [], []) ∧
    dynCreate (fun _ => .ok []) "u1" 7 []
      (some { ID := "", AccountID := "", UnitType := "commercialVehicleType",
              CreatedAt := 0, UpdatedAt := 0, DeletedAt := 0, Data := [] })
      = (.error .accountIDRequired, [], []) ∧
    dynCreate (fun _ => .ok []) "u1" 7 []
      (some { ID := "", AccountID := "acct-1", UnitType := "",
              CreatedAt := 0, UpdatedAt := 0, DeletedAt := 0, Data := [] })
      = (.error .unitTypeRequired, [], []) ∧
    dynCreate (fun _ => .error "boom") "u1" 7 []
      (some { ID := "", AccountID := "acct-1", UnitType := "commercialVehicleType",
              CreatedAt := 0, UpdatedAt := 0, DeletedAt := 0, Data := [] })
      = (.error (.validationFailed ("schema validation error: " ++ "boom")), [], []) :=
  ⟨create_fail_fast.1 _ _ _ _,
   create_fail_fast.2.1 _ _ _ _ _ rfl,
   create_fail_fast.2.2.1 _ _ _ _ _ (by decide) rfl,
   create_fail_fast.2.2.2 _ _ _ _ _ _ (by decide) (by decide) rfl⟩

/-- C3: Update writes behind the guard "key exists and (no deletedAt or
deletedAt = 0)"; when the target is absent or soft deleted, both
repository variants return the not-found-or-deleted error carrying the
account, unit type and id, and leave the store unchanged. -/
theorem update_guard_notFoundOrDeleted :
    (∀ (check : GoMap → Except String (List String)) (now : Int) (st : Store)
      (du : DynamicUnit),
      du.AccountID ≠ "" → du.UnitType ≠ "" → du.ID ≠ "" →
      (du.SetTimestamps now).Validate check = .ok () →
      alookup du.Data "pk" = none → alookup du.Data "sk" = none →
      targetAbsentOrDeleted st du.AccountID du.GetSortKey →
      dynUpdate check now st (some du)
        = (.error (.notFoundOrDeleted du.AccountID du.UnitType du.ID), st,
           [.putItem (marshalMap (du.SetTimestamps now).ToMap)])) ∧
    (∀ (now : Int) (st : Store) (u : FixedUnit),
      u.AccountID ≠ "" → u.ID ≠ "" → u.UnitType ≠ "" →
      targetAbsentOrDeleted st u.AccountID u.GetSortKey →
      fixedUpdate now st (some u)
        = (.error (.notFoundOrDeleted u.AccountID u.UnitType u.ID), st)) := by
  have hcondFalse : ∀ (st : Store) (pk sk : String),
      targetAbsentOrDeleted st pk sk → condUpdate (storeGet st pk sk) = false := by
    intro st pk sk htgt
    rcases htgt with hnone | ⟨it, hit, s, n, hda, hsn, hn⟩
    · simp [hnone, condUpdate, attrExists]
    · have hzero : ¬ strToIntGo s = some 0 := by
        rw [hsn]
        simp
        omega
      simp [hit, condUpdate, attrExists, attrGet, hda, nEqZero, hzero]
  constructor
  · intro check now st du h1 h2 h3 hv hdpk hdsk htgt
    have hpk : alookup (du.SetTimestamps now).ToMap "pk"
        = some (.str du.AccountID) := ToMap_pk _ hdpk
    have hsk : alookup (du.SetTimestamps now).ToMap "sk"
        = some (.str du.GetSortKey) := ToMap_sk _ hdsk
    have hkey := itemKey_marshal _ _ _ hpk hsk
    simp only [dynUpdate, if_neg h1, if_neg h2, if_neg h3, hv]
    simp [putItemCond, hkey, hcondFalse st _ _ htgt]
  · intro now st u h1 h2 h3 htgt
    have hkey : itemKey (marshalFixedUnit
        { u.SetTimestamps now with SortKey := (u.SetTimestamps now).GetSortKey })
        = some (u.AccountID, u.GetSortKey) := by
      simp [marshalFixedUnit, itemKey, alookup, FixedUnit.SetTimestamps, FixedUnit.GetSortKey]
    simp only [fixedUpdate, if_neg h1, if_neg h2, if_neg h3]
    simp [putItemCond, hkey, hcondFalse st _ _ htgt]

/-- C3 witnessed: updating a missing record and a soft-deleted record in
both variants. -/
theorem update_guard_notFoundOrDeleted_witness :
    dynUpdate (fun _ => .ok []) 7 []
      (some { ID := "missing-id", AccountID := "acct-1",
              UnitType := "commercialVehicleType",
              CreatedAt := 0, UpdatedAt := 0, DeletedAt := 0, Data := [] })
      = (.error (.notFoundOrDeleted "acct-1" "commercialVehicleType" "missing-id"), [],
         [.putItem (marshalMap
           (DynamicUnit.SetTimestamps
             { ID := "missing-id", AccountID := "acct-1",
               UnitType := "commercialVehicleType",
               CreatedAt := 0, UpdatedAt := 0, DeletedAt := 0, Data := [] } 7).ToMap)]) ∧
    fixedUpdate 7
      [[("pk", .S "acct-1"), ("sk", .S "u1#commercialVehicleType"),
        ("deletedAt", .N "5")]]
      (some { ID := "u1", AccountID := "acct-1", UnitType := "commercialVehicleType",
              SortKey := "u1#commercialVehicleType",
              CreatedAt := 1, UpdatedAt := 1, DeletedAt := 0, Extra := [] })
      = (.error (.notFoundOrDeleted "acct-1" "commercialVehicleType" "u1"),
         [[("pk", .S "acct-1"), ("sk", .S "u1#commercialVehicleType"),
           ("deletedAt", .N "5")]]) :=
  ⟨update_guard_notFoundOrDeleted.1 _ _ _ _ (by decide) (by decide) (by decide)
    rfl rfl rfl (Or.inl rfl),
   update_guard_notFoundOrDeleted.2 _ _ _ (by decide) (by decide) (by decide)
    (Or.inr ⟨_, rfl, "5", 5, rfl, rfl, by omega⟩)⟩

/-- Whitespace skipping leaves a non-whitespace head alone. -/
theorem skipWs_cons (b : Nat) (l : List Nat)
    (h : ¬(b = 32 ∨ b = 9 ∨ b = 10 ∨ b = 13)) : skipWs (b :: l) = b :: l := by
  rw [skipWs, if_neg h]

/-- Reduction of the value parser at positive fuel. -/
theorem parseValue_succ (fuel : Nat) (input : List Nat) :
    parseValue (fuel + 1) input =
      match skipWs input with
      | [] => .error "unexpected end of JSON"
      | b :: rest =>
        if b = 34 then
          match parseStringBody rest with
          | .ok (cs, rest2) => .ok (.str (String.mk cs), rest2)
          | .error e => .error e
        else if b = 123 then parseObjBody fuel rest
        else if b = 91 then parseArrBody fuel rest
        else if b = 116 then keywordTail [114, 117, 101] (.boolean true) rest
        else if b = 102 then keywordTail [97, 108, 115, 101] (.boolean false) rest
        else if b = 110 then keywordTail [117, 108, 108] .null rest
        else parseNumberVal (b :: rest) := by
  conv_lhs => rw [parseValue.eq_def]

/-- Reduction of the object-body parser at positive fuel. -/
theorem parseObjBody_succ (fuel : Nat) (input : List Nat) :
    parseObjBody (fuel + 1) input =
      match skipWs input with
      | 125 :: rest2 => .ok (.obj [], rest2)
      | l2 =>
        match parseMembers fuel l2 with
        | .ok (fs, rest2) => .ok (.obj fs, rest2)
        | .error e => .error e := by
  conv_lhs => rw [parseObjBody.eq_def]

/-- Reduction of the member parser at positive fuel. -/
theorem parseMembers_succ (fuel : Nat) (input : List Nat) :
    parseMembers (fuel + 1) input =
      match skipWs input with
      | [] => .error "expected object key"
      | b :: rest =>
        if b = 34 then
          match parseStringBody rest with
          | .error e => .error e
          | .ok (k, rest2) => parseMemberColon fuel (String.mk k) rest2
        else .error "expected object key" := by
  conv_lhs => rw [parseMembers.eq_def]

/-- Reduction of the member-colon parser at positive fuel. -/
theorem parseMemberColon_succ (fuel : Nat) (k : String) (input : List Nat) :
    parseMemberColon (fuel + 1) k input =
      match skipWs input with
      | [] => .error "expected colon"
      | b :: rest =>
        if b = 58 then parseMemberValue fuel k rest
        else .error "expected colon" := by
  conv_lhs => rw [parseMemberColon.eq_def]

/-- Reduction of the member-value parser at positive fuel. -/
theorem parseMemberValue_succ (fuel : Nat) (k : String) (input : List Nat) :
    parseMemberValue (fuel + 1) k input =
      match parseValue fuel input with
      | .error e => .error e
      | .ok (v, rest4) => parseMemberNext fuel k v rest4 := by
  conv_lhs => rw [parseMemberValue.eq_def]

/-- Reduction of the member-separator parser at positive fuel. -/
theorem parseMemberNext_succ (fuel : Nat) (k : String) (v : JValue) (input : List Nat) :
    parseMemberNext (fuel + 1) k v input =
      match skipWs input with
      | [] => .error "expected comma or closing brace"
      | b :: rest5 =>
        if b = 44 then
          match parseMembers fuel rest5 with
          | .ok (fs, rest6) => .ok ((k, v) :: fs, rest6)
          | .error e => .error e
        else if b = 125 then .ok ([(k, v)], rest5)
        else .error "expected comma or closing brace" := by
  conv_lhs => rw [parseMemberNext.eq_def]

/-- The value parser at positive fuel inverts string serialization. -/
theorem parseValue_serStr (fuel : Nat) (s : String) (rest : List Nat) :
    parseValue (fuel + 1) (serStr s ++ rest) = .ok (.str s, rest) := by
  have hshape : serStr s ++ rest = 34 :: (escString s.data ++ 34 :: rest) := by
    simp [serStr]
  rw [hshape, parseValue_succ, skipWs_cons _ _ (by norm_num)]
  simp [parseStringBody_escString]

/-- One serialized member reduces to the separator step, spending four
units of fuel. -/
theorem parseMembers_member (fuel : Nat) (k v : String) (tail : List Nat) :
    parseMembers (fuel + 4)
        (34 :: (escString k.data ++ 34 :: (58 :: (serStr v ++ tail)))) =
      parseMemberNext (fuel + 1) k (.str v) tail := by
  rw [show fuel + 4 = (fuel + 3) + 1 by omega, parseMembers_succ,
    skipWs_cons _ _ (by norm_num)]
  simp only [parseStringBody_escString]
  norm_num
  rw [show fuel + 3 = (fuel + 2) + 1 by omega, parseMemberColon_succ,
    skipWs_cons _ _ (by norm_num)]
  norm_num
  rw [show fuel + 2 = (fuel + 1) + 1 by omega, parseMemberValue_succ, parseValue_serStr]

/-- The separator step at a comma recurses into the remaining members. -/
theorem parseMemberNext_comma (fuel : Nat) (k : String) (v : JValue) (tail : List Nat) :
    parseMemberNext (fuel + 1) k v (44 :: tail) =
      match parseMembers fuel tail with
      | .ok (fs, rest6) => .ok ((k, v) :: fs, rest6)
      | .error e => .error e := by
  rw [parseMemberNext_succ, skipWs_cons _ _ (by norm_num)]
  norm_num

/-- The separator step at the closing brace finishes the object. -/
theorem parseMemberNext_close (fuel : Nat) (k : String) (v : JValue) (rest : List Nat) :
    parseMemberNext (fuel + 1) k v (125 :: rest) = .ok ([(k, v)], rest) := by
  rw [parseMemberNext_succ, skipWs_cons _ _ (by norm_num)]
  norm_num

/-- The member parser inverts member serialization: four units of fuel
per member consume the members and the closing brace. -/
theorem parseMembers_ser : ∀ (m : List (String × String)) (f : Nat) (rest : List Nat),
    m ≠ [] →
    parseMembers (4 * m.length + f) (serMembers m ++ 125 :: rest) =
      .ok (m.map (fun p => (p.1, JValue.str p.2)), rest)
  | [], _, _, h => absurd rfl h
  | [(k, v)], f, rest, _ => by
    have hshape : serMembers [(k, v)] ++ 125 :: rest =
        34 :: (escString k.data ++ 34 :: (58 :: (serStr v ++ 125 :: rest))) := by
      simp [serMembers, serStr]
    have hfuel : 4 * List.length [(k, v)] + f = f + 4 := by
      simp only [List.length_cons, List.length_nil]
      omega
    rw [hshape, hfuel, parseMembers_member, parseMemberNext_close]
    simp
  | (k, v) :: q :: t, f, rest, _ => by
    have hshape : serMembers ((k, v) :: q :: t) ++ 125 :: rest =
        34 :: (escString k.data ++ 34 ::
          (58 :: (serStr v ++ 44 :: (serMembers (q :: t) ++ 125 :: rest)))) := by
      simp [serMembers, serStr]
    have hfuel : 4 * List.length ((k, v) :: q :: t) + f =
        (4 * List.length (q :: t) + f) + 4 := by
      simp only [List.length_cons]
      omega
    rw [hshape, hfuel, parseMembers_member, parseMemberNext_comma,
      parseMembers_ser (q :: t) f rest (by simp)]
    simp

/-- A serialized string is at least its two quotes long. -/
theorem serStr_length (s : String) : 2 ≤ (serStr s).length := by
  simp [serStr]

/-- Serialized members are long enough to pay four fuel per member. -/
theorem serMembers_length : ∀ (m : List (String × String)),
    5 * m.length ≤ (serMembers m).length + 1
  | [] => by simp
  | [(k, v)] => by
    have h1 := serStr_length k
    have h2 := serStr_length v
    simp only [serMembers, List.length_append, List.length_cons, List.length_nil]
    omega
  | (k, v) :: q :: t => by
    have h1 := serStr_length k
    have h2 := serStr_length v
    have h3 := serMembers_length (q :: t)
    simp only [List.length_cons] at h3
    simp only [serMembers, List.length_append, List.length_cons, List.length_nil]
    omega

/-- A non-empty member list serializes to a quote-headed byte run. -/
theorem serMembers_head : ∀ (k v : String) (t : List (String × String)),
    ∃ Y, serMembers ((k, v) :: t) = 34 :: Y
  | k, v, [] =>
    ⟨escString k.data ++ 34 :: 58 :: 34 :: (escString v.data ++ [34]),
     by simp [serMembers, serStr]⟩
  | k, v, q :: t =>
    ⟨escString k.data ++ 34 :: 58 :: 34 :: (escString v.data ++ 34 :: 44 ::
        serMembers (q :: t)),
     by simp [serMembers, serStr]⟩

/-- The object-body parser on serialized members falls through to the
member parser. -/
theorem parseObjBody_members (fuel : Nat) (m : List (String × String))
    (rest : List Nat) (hm : m ≠ []) :
    parseObjBody (fuel + 1) (serMembers m ++ 125 :: rest) =
      match parseMembers fuel (serMembers m ++ 125 :: rest) with
      | .ok (fs, rest2) => .ok (.obj fs, rest2)
      | .error e => .error e := by
  obtain ⟨⟨k, v⟩, t, rfl⟩ : ∃ p t, m = p :: t := by
    cases m with
    | nil => exact absurd rfl hm
    | cons p t => exact ⟨p, t, rfl⟩
  obtain ⟨Y, hY⟩ := serMembers_head k v t
  rw [parseObjBody_succ, hY, List.cons_append, skipWs_cons _ _ (by norm_num)]

/-- json.Unmarshal inverts compact object serialization: the fuel the
parser is given always suffices. -/
theorem jsonParse_serObj (m : List (String × String)) :
    jsonParse (serObj m) = .ok (.obj (m.map (fun p => (p.1, JValue.str p.2)))) := by
  cases m with
  | nil => rfl
  | cons p t =>
    have hne : (p :: t) ≠ ([] : List (String × String)) := by simp
    have hlen := serMembers_length (p :: t)
    rw [jsonParse]
    rw [show serObj (p :: t) = 123 :: (serMembers (p :: t) ++ [125]) from rfl]
    rw [show (123 :: (serMembers (p :: t) ++ [125])).length + 1
        = ((serMembers (p :: t)).length + 2) + 1 by simp]
    rw [parseValue_succ, skipWs_cons _ _ (by norm_num)]
    norm_num
    rw [show (serMembers (p :: t)).length + 2
        = ((serMembers (p :: t)).length + 1) + 1 by omega]
    rw [show ([125] : List Nat) = 125 :: [] from rfl, parseObjBody_members _ _ _ hne]
    rw [show (serMembers (p :: t)).length + 1
        = 4 * (p :: t).length + ((serMembers (p :: t)).length + 1 - 4 * (p :: t).length)
        by omega]
    rw [parseMembers_ser _ _ _ hne]
    simp [skipWs]

/-- Hexadecimal digit bytes are bytes. -/
theorem hexByte_lt (k : Nat) : hexByte k < 256 := by
  unfold hexByte
  split <;> norm_num

/-- Hexadecimal-escape bytes are bytes. -/
theorem escU_lt (n : Nat) (b : Nat) (hb : b ∈ escU n) : b < 256 := by
  simp [escU] at hb
  rcases hb with rfl | rfl | rfl | rfl | rfl | rfl
  · norm_num
  · norm_num
  · exact hexByte_lt _
  · exact hexByte_lt _
  · exact hexByte_lt _
  · exact hexByte_lt _

/-- UTF-8 bytes of an in-range code point are bytes. -/
theorem utf8Char_lt (n : Nat) (hn : n < 1114112) (b : Nat) (hb : b ∈ utf8Char n) :
    b < 256 := by
  rw [utf8Char] at hb
  split_ifs at hb with h1 h2 h3 <;> simp at hb
  · omega
  · rcases hb with rfl | rfl <;> omega
  · rcases hb with rfl | rfl | rfl <;> omega
  · rcases hb with rfl | rfl | rfl | rfl <;> omega

/-- Escaped characters serialize to bytes. -/
theorem escChar_lt (c : Char) (b : Nat) (hb : b ∈ escChar c) : b < 256 := by
  rw [escChar] at hb
  split_ifs at hb with h1 h2 h3 h4 h5 h6
  · simp at hb; omega
  · simp at hb; omega
  · simp at hb; omega
  · simp at hb; omega
  · simp at hb; omega
  · exact escU_lt _ _ hb
  · exact utf8Char_lt _ (charToNatLt c) _ hb

/-- Escaped character runs serialize to bytes. -/
theorem escString_lt : ∀ (cs : List Char) (b : Nat), b ∈ escString cs → b < 256
  | [], _, hb => by simp [escString] at hb
  | c :: cs, b, hb => by
    rw [escString] at hb
    rcases List.mem_append.mp hb with h | h
    · exact escChar_lt c b h
    · exact escString_lt cs b h

/-- Serialized strings are byte runs. -/
theorem serStr_lt (s : String) (b : Nat) (hb : b ∈ serStr s) : b < 256 := by
  simp [serStr] at hb
  rcases hb with rfl | hb | rfl
  · norm_num
  · exact escString_lt _ _ hb
  · norm_num

/-- Serialized members are byte runs. -/
theorem serMembers_lt : ∀ (m : List (String × String)) (b : Nat),
    b ∈ serMembers m → b < 256
  | [], _, hb => by simp [serMembers] at hb
  | [(k, v)], b, hb => by
    simp only [serMembers, List.append_assoc, List.mem_append, List.mem_singleton] at hb
    rcases hb with h | rfl | h
    · exact serStr_lt k b h
    · norm_num
    · exact serStr_lt v b h
  | (k, v) :: q :: t, b, hb => by
    simp only [serMembers, List.append_assoc, List.mem_append, List.mem_singleton] at hb
    rcases hb with h | rfl | h | rfl | h
    · exact serStr_lt k b h
    · norm_num
    · exact serStr_lt v b h
    · norm_num
    · exact serMembers_lt (q :: t) b h

/-- Serialized objects are byte runs, so transport encoding round
trips over them. -/
theorem serObj_lt (m : List (String × String)) (b : Nat) (hb : b ∈ serObj m) :
    b < 256 := by
  simp [serObj] at hb
  rcases hb with rfl | hb | rfl
  · norm_num
  · exact serMembers_lt m b hb
  · norm_num

/-- Encoding a non-empty byte run gives a non-empty character run. -/
theorem b64encodeChars_ne : ∀ (bs : List Nat), bs ≠ [] → b64encodeChars bs ≠ []
  | [], h => absurd rfl h
  | [b0], _ => by simp [b64encodeChars]
  | [b0, b1], _ => by simp [b64encodeChars]
  | b0 :: b1 :: b2 :: rest, _ => by simp [b64encodeChars]

/-- Encoding a non-empty byte run gives a non-empty token. -/
theorem b64encode_ne (bs : List Nat) (h : bs ≠ []) : b64encode bs ≠ "" := by
  intro he
  apply b64encodeChars_ne bs h
  have hd : (b64encode bs).data = ("" : String).data := by rw [he]
  simpa [b64encode] using hd

/-- Inserting below the head keeps the list in place. -/
theorem insertByKey_head (p q : String × String) (t : List (String × String))
    (h : p.1 ≤ q.1) : insertByKey p (q :: t) = p :: q :: t := by
  rw [insertByKey, if_pos h]

/-- Sorting a list already strictly sorted by key leaves it alone. -/
theorem sortByKey_sorted : ∀ (l : List (String × String)),
    List.Chain' (fun p q => p.1 < q.1) l → sortByKey l = l
  | [], _ => rfl
  | [p], _ => by simp [sortByKey, insertByKey]
  | p :: q :: t, h => by
    obtain ⟨hpq, h2⟩ := List.chain'_cons.mp h
    rw [sortByKey, sortByKey_sorted (q :: t) h2, insertByKey_head _ _ _ (le_of_lt hpq)]

/-- Re-typing inverts flattening on the representable attribute values:
`pk`/`sk` strings and numeric text under any other key. -/
theorem retype_flatten (k : String) (v : AttributeValue)
    (h : ((k = "pk" ∨ k = "sk") ∧ ∃ s, v = .S s) ∨
      (¬(k = "pk" ∨ k = "sk") ∧ ∃ s, v = .N s ∧ goParseFloatOk s = true)) :
    retypeField k (.str (flattenAttr v)) = v := by
  rcases h with ⟨hk, s, rfl⟩ | ⟨hk, s, rfl, hs⟩
  · simp [flattenAttr, retypeField, hk]
  · simp [flattenAttr, retypeField, hk, hs]

/-- Decoding maps each serialized field back to its attribute. -/
theorem retype_map : ∀ (m : List (String × AttributeValue)),
    (∀ p ∈ m, ((p.1 = "pk" ∨ p.1 = "sk") ∧ ∃ s, p.2 = .S s) ∨
      (¬(p.1 = "pk" ∨ p.1 = "sk") ∧ ∃ s, p.2 = .N s ∧ goParseFloatOk s = true)) →
    (((m.map (fun p => (p.1, flattenAttr p.2))).map
        (fun p => (p.1, JValue.str p.2))).map
      (fun p => (p.1, retypeField p.1 p.2))) = m
  | [], _ => rfl
  | p :: t, h => by
    simp only [List.map_cons]
    rw [retype_map t (fun q hq => h q (List.mem_cons_of_mem _ hq))]
    have hp := retype_flatten p.1 p.2 (h p (by simp))
    simp [hp]

/-- C1: Pagination-token round-trip — for every key map whose entries
are strictly key-sorted (the canonical form of a Go map, whose iteration
order is immaterial) and whose values are the declared key-field strings
(under "pk" and "sk") or numeric-looking text (under any other name),
decodePaginationToken(encodePaginationToken(k)) == k, preserving each
attribute's name, value, and string-vs-number typing. -/
theorem pagination_roundtrip (m : List (String × AttributeValue))
    (hsorted : List.Chain' (fun p q => p.1 < q.1) m)
    (hvals : ∀ p ∈ m, ((p.1 = "pk" ∨ p.1 = "sk") ∧ ∃ s, p.2 = .S s) ∨
      (¬(p.1 = "pk" ∨ p.1 = "sk") ∧ ∃ s, p.2 = .N s ∧ goParseFloatOk s = true)) :
    decodePaginationToken (encodePaginationToken (some m)) = .ok (some m) := by
  have hsorted2 : List.Chain' (fun p q => p.1 < q.1)
      (m.map (fun p => (p.1, flattenAttr p.2))) := by
    rw [List.chain'_map]
    exact hsorted
  have henc : encodePaginationToken (some m) =
      b64encode (serObj (m.map (fun p => (p.1, flattenAttr p.2)))) := by
    rw [encodePaginationToken, sortByKey_sorted _ hsorted2]
  have hne : serObj (m.map (fun p => (p.1, flattenAttr p.2))) ≠ [] := by
    simp [serObj]
  have htok : b64encode (serObj (m.map (fun p => (p.1, flattenAttr p.2)))) ≠ "" :=
    b64encode_ne _ hne
  rw [henc, decodePaginationToken, if_neg htok,
    b64decode_b64encode _ (serObj_lt _)]
  simp only [jsonParse_serObj]
  rw [retype_map m hvals]

/-- C1 witness: the round trip at a concrete two-field key map. -/
theorem pagination_roundtrip_witness :
    List.Chain' (fun p q : String × AttributeValue => p.1 < q.1)
      [("pk", AttributeValue.S "acct-1"),
       ("sk", AttributeValue.S "commercialVehicleType#u1")] ∧
    decodePaginationToken (encodePaginationToken (some
        [("pk", AttributeValue.S "acct-1"),
         ("sk", AttributeValue.S "commercialVehicleType#u1")])) =
      .ok (some [("pk", AttributeValue.S "acct-1"),
        ("sk", AttributeValue.S "commercialVehicleType#u1")]) :=
  ⟨List.chain'_cons.mpr
     ⟨String.lt_iff_toList_lt.mpr (by decide), List.chain'_singleton _⟩,
   pagination_roundtrip _
    (List.chain'_cons.mpr
      ⟨String.lt_iff_toList_lt.mpr (by decide), List.chain'_singleton _⟩) (by
    intro p hp
    simp only [List.mem_cons, List.not_mem_nil, or_false] at hp
    rcases hp with rfl | rfl
    · exact Or.inl ⟨Or.inl rfl, "acct-1", rfl⟩
    · exact Or.inl ⟨Or.inr rfl, "commercialVehicleType#u1", rfl⟩)⟩

/-- C6: Pagination codec boundary contract — encoding the absent key
yields the empty token; decoding the empty token yields the absent key
with no error; a non-empty token whose transport decoding fails, or
whose decoded bytes fail JSON parsing, surfaces a decode error; and no
non-empty token ever decodes to the absent key silently. -/
theorem pagination_boundary :
    encodePaginationToken none = "" ∧
    decodePaginationToken "" = .ok none ∧
    (∀ t e, t ≠ "" → b64decode t = .error e →
      decodePaginationToken t = .error ("failed to decode token: " ++ e)) ∧
    (∀ t bs e, t ≠ "" → b64decode t = .ok bs → jsonParse bs = .error e →
      decodePaginationToken t = .error ("failed to unmarshal token data: " ++ e)) ∧
    (∀ t, t ≠ "" → decodePaginationToken t ≠ .ok none) := by
  refine ⟨rfl, rfl, ?_, ?_, ?_⟩
  · intro t e ht he
    rw [decodePaginationToken, if_neg ht, he]
  · intro t bs e ht hb he
    rw [decodePaginationToken, if_neg ht, hb]
    simp only [he]
  · intro t ht
    rw [decodePaginationToken, if_neg ht]
    cases hb : b64decode t with
    | error e => simp
    | ok bs =>
      cases hj : jsonParse bs with
      | error e => simp [hj]
      | ok v => cases v <;> simp [hj]

/-- C6 witness: a malformed transport wrapper, and well-formed transport
around malformed structured text, both decode to errors; neither is
silently dropped. -/
theorem pagination_boundary_witness :
    decodePaginationToken "%" =
      .error ("failed to decode token: " ++ "illegal base64 data") ∧
    decodePaginationToken "YQ==" =
      .error ("failed to unmarshal token data: " ++ "invalid JSON value") ∧
    decodePaginationToken "YQ==" ≠ .ok none :=
  ⟨pagination_boundary.2.2.1 "%" "illegal base64 data" (by decide) rfl,
   pagination_boundary.2.2.2.1 "YQ==" [97] "invalid JSON value" (by decide) rfl rfl,
   pagination_boundary.2.2.2.2 "YQ==" (by decide)⟩

/-- C2: List on an account with zero matching records — the claim says
both variants return a present, zero-length items collection with count
0, but the dynamic variant's append loop leaves its Items slice as the
Go nil slice (an absent/null collection), while only the fixed variant,
whose slice is initialized empty before unmarshalling, returns the
present empty collection.  The divergence on the dynamic variant is the
code bug. -/
theorem list_zero_match_items (st : Store) (acc : String) (hacc : ¬acc = "")
    (hnone : ∀ it ∈ st, keyCondMatch acc none it = false) :
    dynList st (some ⟨acc, none, none, none⟩) =
      .ok ⟨none, 0, none⟩ ∧
    fixedList st (some ⟨acc, none, none, none⟩) =
      .ok ⟨some [], 0, none⟩ := by
  have hfilter : List.filter (fun it => keyCondMatch acc none it) st = [] := by
    rw [List.filter_eq_nil_iff]
    intro it hit
    simp [hnone it hit]
  constructor
  · rw [dynList]
    simp only [listStartKey, listUtPre, dynQuery, afterStartKey, effectiveLimit,
      listNextTok]
    rw [if_neg hacc]
    simp [hfilter]
  · rw [fixedList]
    simp only [listStartKey, dynQuery, afterStartKey, effectiveLimit, listNextTok]
    rw [if_neg hacc]
    simp [hfilter]

/-- C2 witness: a store holding only another account's record matches
nothing; the dynamic response carries the nil slice, the fixed response
the present empty one. -/
theorem list_zero_match_items_witness :
    (¬("acct-1" : String) = "") ∧
    (∀ it ∈ ([[("pk", AttributeValue.S "other"), ("sk", AttributeValue.S "t#1")]] :
        Store), keyCondMatch "acct-1" none it = false) ∧
    dynList [[("pk", AttributeValue.S "other"), ("sk", AttributeValue.S "t#1")]]
        (some ⟨"acct-1", none, none, none⟩) =
      .ok ⟨none, 0, none⟩ ∧
    fixedList [[("pk", AttributeValue.S "other"), ("sk", AttributeValue.S "t#1")]]
        (some ⟨"acct-1", none, none, none⟩) =
      .ok ⟨some [], 0, none⟩ :=
  ⟨by decide, by decide,
   list_zero_match_items _ _ (by decide) (by decide)⟩

end UntUnits
